import Mathlib

/-!
# Verification of the OSS-Fuzz compliance/deployment and crash-intelligence tools

Shallow embedding, in Lean 4, of the algorithmic content of the repository:

* `master-compliance-deploy.py` (Master Compliance Deployer)
* `enhanced-master-deploy.py` (Enhanced Master Deployer)
* `comprehensive-compliance-deploy.py` (Comprehensive Compliance Deployer)
* `security-audit-integration.py` (Security Audit Processor)
* `tools/embedding_intelligence/lean_crash_analyzer.py` (Crash Heuristics Engine)

Strings are modelled as `List Char`.  Python `float` arithmetic on the small
score constants is modelled with exact rationals (`ℚ`).  Python's
process-seeded builtin `hash` on strings and the external embedding service
are modelled as parameters; `hashlib.md5` is implemented concretely.
-/

namespace OssFuzz

/-- Python strings are modelled as lists of characters. -/
abbrev Str := List Char

/-- Convert a Lean string literal to the `List Char` model. -/
def str (s : String) : Str := s.data

/-- `startsList hay needle` is Python's `hay.startswith(needle)`. -/
def startsList : Str → Str → Bool
  | _, [] => true
  | [], _ :: _ => false
  | c :: cs, d :: ds => c == d && startsList cs ds

/-- `containsSub hay needle` is Python's `needle in hay` (substring test). -/
def containsSub : Str → Str → Bool
  | [], needle => needle.isEmpty
  | hay@(_ :: t), needle => startsList hay needle || containsSub t needle

/-- Python's `str.lower` (ASCII case fold suffices for the checked patterns). -/
def lowerStr (s : Str) : Str := s.map Char.toLower

theorem startsList_append_self (a b : Str) : startsList (a ++ b) a = true := by
  induction a with
  | nil => cases b <;> rfl
  | cons c cs ih => simp [startsList, ih]

theorem containsSub_self_append (n v : Str) : containsSub (n ++ v) n = true := by
  cases n with
  | nil => cases v <;> simp [containsSub, List.isEmpty, startsList]
  | cons c cs =>
    simp only [List.cons_append, containsSub, Bool.or_eq_true]
    exact Or.inl (startsList_append_self (c :: cs) v)

theorem containsSub_of_middle (u n v : Str) : containsSub (u ++ n ++ v) n = true := by
  induction u with
  | nil => simpa using containsSub_self_append n v
  | cons c cs ih =>
    simp only [List.cons_append, containsSub, Bool.or_eq_true]
    exact Or.inr ih

/-! ## Copyright-header checks (claims C3 and C7)

`MasterComplianceDeployer.__init__` compiles
`re.compile(r'Copyright 2025 Google LLC', re.IGNORECASE)` and
`_check_file_compliance` runs `.search` on the file content, so the master
deployer's check is a case-insensitive substring search.

`ComprehensiveComplianceDeployer._has_copyright_header` tests the
case-sensitive Python substring expression
`"Copyright 2025 Google LLC" in content`.
-/

/-- The master deployer's copyright check: case-insensitive search of the
literal pattern `Copyright 2025 Google LLC` (the pattern has no regex
metacharacters, so `re.search` is a substring test after case folding). -/
def masterHasCopyright (content : Str) : Bool :=
  containsSub (lowerStr content) (str "copyright 2025 google llc")

/-- The comprehensive deployer's copyright check
(`_has_copyright_header`): exact, case-sensitive substring containment. -/
def compHasCopyright (content : Str) : Bool :=
  containsSub content (str "Copyright 2025 Google LLC")

/-- The fixed header block prepended by
`ComprehensiveComplianceDeployer._add_copyright_header`
(transcription of the Python triple-quoted `copyright_header` literal). -/
def copyrightHeaderBlock : Str :=
  str "# Copyright 2025 Google LLC\n#\n# Licensed under the Apache License, Version 2.0 (the \"License\");\n# you may not use this file except in compliance with the License.\n# You may obtain a copy of the License at\n#\n#      http://www.apache.org/licenses/LICENSE-2.0\n#\n# Unless required by applicable law or agreed to in writing, software\n# distributed under the License is distributed on an \"AS IS\" BASIS,\n# WITHOUT WARRANTIES OR CONDITIONS OF ANY KIND, either express or implied.\n# See the License for the specific language governing permissions and\n# limitations under the License.\n#\n################################################################################\n\n"

/-- `_add_copyright_header` as a transformation of the file content:
if the content does not start with the exact header block, prepend it;
otherwise leave the content unchanged. -/
def addCopyrightHeader (content : Str) : Str :=
  if startsList content copyrightHeaderBlock then content
  else copyrightHeaderBlock ++ content

/-! ## 32-bit arithmetic, UTF-8, MD5 and SHA-256

The crash analyzer computes `hashlib.md5(...).hexdigest()[:12]` (crash
signature), `hashlib.md5(...).hexdigest()[:16]` (deduplication key) and
`hashlib.sha256(...).hexdigest()` (embedding cache key), so both digest
functions are implemented here over byte lists (`List Nat`, each < 256),
with machine words as `Nat` reduced modulo `2 ^ 32`.
-/

/-- Truncate to a 32-bit word. -/
def w32 (n : Nat) : Nat := n % 4294967296

/-- 32-bit left rotation. -/
def rotl32 (x n : Nat) : Nat := w32 ((x <<< n) + (x >>> (32 - n)))

/-- 32-bit right rotation. -/
def rotr32 (x n : Nat) : Nat := w32 ((x >>> n) + (x <<< (32 - n)))

/-- 32-bit bitwise complement. -/
def not32 (x : Nat) : Nat := 4294967295 - x

/-- UTF-8 encoding of one character (as Python's `str.encode()` does). -/
def utf8Char (c : Char) : List Nat :=
  let n := c.toNat
  if n < 128 then [n]
  else if n < 2048 then [192 + n / 64, 128 + n % 64]
  else if n < 65536 then [224 + n / 4096, 128 + n / 64 % 64, 128 + n % 64]
  else [240 + n / 262144, 128 + n / 4096 % 64, 128 + n / 64 % 64, 128 + n % 64]

/-- UTF-8 encoding of a string. -/
def utf8Bytes (s : Str) : List Nat := s.flatMap utf8Char

/-- Little-endian 4-byte rendering of a 32-bit word. -/
def le4 (n : Nat) : List Nat :=
  [n % 256, n / 256 % 256, n / 65536 % 256, n / 16777216 % 256]

/-- Little-endian 8-byte rendering of a 64-bit value. -/
def le8 (n : Nat) : List Nat :=
  le4 (n % 4294967296) ++ le4 (n / 4294967296 % 4294967296)

/-- Big-endian 4-byte rendering of a 32-bit word. -/
def be4 (n : Nat) : List Nat :=
  [n / 16777216 % 256, n / 65536 % 256, n / 256 % 256, n % 256]

/-- Big-endian 8-byte rendering of a 64-bit value. -/
def be8 (n : Nat) : List Nat :=
  be4 (n / 4294967296 % 4294967296) ++ be4 (n % 4294967296)

/-- Split a byte list into 64-byte blocks (structural recursion on a fuel
bound; each step consumes at least one byte, so `l.length` is enough fuel). -/
def chunks64F : Nat → List Nat → List (List Nat)
  | 0, _ => []
  | _ + 1, [] => []
  | fuel + 1, l => l.take 64 :: chunks64F fuel (l.drop 64)

/-- Split a byte list into 64-byte blocks. -/
def chunks64 (l : List Nat) : List (List Nat) := chunks64F l.length l

/-- Merkle–Damgård padding shared by MD5 and SHA-256: append `0x80`, zero
bytes to 56 mod 64, then the bit length as 8 bytes (`lenBytes` renders it
little-endian for MD5, big-endian for SHA-256). -/
def padMessage (lenBytes : Nat → List Nat) (msg : List Nat) : List Nat :=
  let len := msg.length
  let k := (119 - len % 64) % 64
  msg ++ [128] ++ List.replicate k 0 ++ lenBytes (8 * len % 18446744073709551616)

/-- The 64 MD5 sine constants (RFC 1321 table `T`). -/
def md5K : List Nat :=
  [0xd76aa478, 0xe8c7b756, 0x242070db, 0xc1bdceee,
   0xf57c0faf, 0x4787c62a, 0xa8304613, 0xfd469501,
   0x698098d8, 0x8b44f7af, 0xffff5bb1, 0x895cd7be,
   0x6b901122, 0xfd987193, 0xa679438e, 0x49b40821,
   0xf61e2562, 0xc040b340, 0x265e5a51, 0xe9b6c7aa,
   0xd62f105d, 0x02441453, 0xd8a1e681, 0xe7d3fbc8,
   0x21e1cde6, 0xc33707d6, 0xf4d50d87, 0x455a14ed,
   0xa9e3e905, 0xfcefa3f8, 0x676f02d9, 0x8d2a4c8a,
   0xfffa3942, 0x8771f681, 0x6d9d6122, 0xfde5380c,
   0xa4beea44, 0x4bdecfa9, 0xf6bb4b60, 0xbebfbc70,
   0x289b7ec6, 0xeaa127fa, 0xd4ef3085, 0x04881d05,
   0xd9d4d039, 0xe6db99e5, 0x1fa27cf8, 0xc4ac5665,
   0xf4292244, 0x432aff97, 0xab9423a7, 0xfc93a039,
   0x655b59c3, 0x8f0ccc92, 0xffeff47d, 0x85845dd1,
   0x6fa87e4f, 0xfe2ce6e0, 0xa3014314, 0x4e0811a1,
   0xf7537e82, 0xbd3af235, 0x2ad7d2bb, 0xeb86d391]

/-- The 64 MD5 per-round shift amounts. -/
def md5S : List Nat :=
  [7, 12, 17, 22, 7, 12, 17, 22, 7, 12, 17, 22, 7, 12, 17, 22,
   5, 9, 14, 20, 5, 9, 14, 20, 5, 9, 14, 20, 5, 9, 14, 20,
   4, 11, 16, 23, 4, 11, 16, 23, 4, 11, 16, 23, 4, 11, 16, 23,
   6, 10, 15, 21, 6, 10, 15, 21, 6, 10, 15, 21, 6, 10, 15, 21]

/-- Decode a 64-byte block into 16 little-endian 32-bit words. -/
def wordsLE (block : List Nat) : List Nat :=
  (List.range 16).map fun i =>
    block.getD (4 * i) 0 + 256 * block.getD (4 * i + 1) 0 +
      65536 * block.getD (4 * i + 2) 0 + 16777216 * block.getD (4 * i + 3) 0

/-- One MD5 round. -/
def md5Round (M : List Nat) (st : Nat × Nat × Nat × Nat) (i : Nat) :
    Nat × Nat × Nat × Nat :=
  let a := st.1
  let b := st.2.1
  let c := st.2.2.1
  let d := st.2.2.2
  let fg : Nat × Nat :=
    if i < 16 then ((b &&& c) ||| (not32 b &&& d), i)
    else if i < 32 then ((d &&& b) ||| (not32 d &&& c), (5 * i + 1) % 16)
    else if i < 48 then (b ^^^ c ^^^ d, (3 * i + 5) % 16)
    else (c ^^^ (b ||| not32 d), 7 * i % 16)
  let tmp := w32 (fg.1 + a + md5K.getD i 0 + M.getD fg.2 0)
  (d, w32 (b + rotl32 tmp (md5S.getD i 0)), b, c)

/-- Process one 64-byte block of the MD5 compression function. -/
def md5Block (st : Nat × Nat × Nat × Nat) (block : List Nat) :
    Nat × Nat × Nat × Nat :=
  let M := wordsLE block
  let r := (List.range 64).foldl (md5Round M) st
  (w32 (st.1 + r.1), w32 (st.2.1 + r.2.1), w32 (st.2.2.1 + r.2.2.1),
   w32 (st.2.2.2 + r.2.2.2))

/-- MD5 digest (16 bytes) of a byte list. -/
def md5Bytes (msg : List Nat) : List Nat :=
  let st := (chunks64 (padMessage le8 msg)).foldl md5Block
    (0x67452301, 0xefcdab89, 0x98badcfe, 0x10325476)
  le4 st.1 ++ le4 st.2.1 ++ le4 st.2.2.1 ++ le4 st.2.2.2

/-- Lower-case hex digit. -/
def hexDigitChar (n : Nat) : Char :=
  if n < 10 then Char.ofNat (48 + n) else Char.ofNat (87 + n)

/-- Two-character lower-case hex rendering of one byte. -/
def byteHex (b : Nat) : List Char := [hexDigitChar (b / 16), hexDigitChar (b % 16)]

/-- `hashlib.md5(s.encode()).hexdigest()`. -/
def md5hex (s : Str) : Str := (md5Bytes (utf8Bytes s)).flatMap byteHex

/-- The 64 SHA-256 round constants (decimal rendering of the FIPS 180-4
table). -/
def sha256K : List Nat :=
  [1116352408, 1899447441, 3049323471, 3921009573,
   961987163, 1508970993, 2453635748, 2870763221,
   3624381080, 310598401, 607225278, 1426881987,
   1925078388, 2162078206, 2614888103, 3248222580,
   3835390401, 4022224774, 264347078, 604807628,
   770255983, 1249150122, 1555081692, 1996064986,
   2554220882, 2821834349, 2952996808, 3210313671,
   3336571891, 3584528711, 113926993, 338241895,
   666307205, 773529912, 1294757372, 1396182291,
   1695183700, 1986661051, 2177026350, 2456956037,
   2730485921, 2820302411, 3259730800, 3345764771,
   3516065817, 3600352804, 4094571909, 275423344,
   430227734, 506948616, 659060556, 883997877,
   958139571, 1322822218, 1537002063, 1747873779,
   1955562222, 2024104815, 2227730452, 2361852424,
   2428436474, 2756734187, 3204031479, 3329325298]

/-- Decode a 64-byte block into 16 big-endian 32-bit words. -/
def wordsBE (block : List Nat) : List Nat :=
  (List.range 16).map fun i =>
    16777216 * block.getD (4 * i) 0 + 65536 * block.getD (4 * i + 1) 0 +
      256 * block.getD (4 * i + 2) 0 + block.getD (4 * i + 3) 0

/-- Extend the 16 message words to the 64-entry SHA-256 schedule. -/
def sha256Schedule (w : List Nat) : List Nat :=
  (List.range 48).foldl
    (fun acc _ =>
      let n := acc.length
      let s0 :=
        let x := acc.getD (n - 15) 0
        rotr32 x 7 ^^^ rotr32 x 18 ^^^ (x >>> 3)
      let s1 :=
        let x := acc.getD (n - 2) 0
        rotr32 x 17 ^^^ rotr32 x 19 ^^^ (x >>> 10)
      acc ++ [w32 (acc.getD (n - 16) 0 + s0 + acc.getD (n - 7) 0 + s1)])
    w

/-- SHA-256 working state: eight 32-bit registers. -/
structure Sha256St where
  a : Nat
  b : Nat
  c : Nat
  d : Nat
  e : Nat
  f : Nat
  g : Nat
  h : Nat

/-- One SHA-256 round. -/
def sha256Round (W : List Nat) (st : Sha256St) (i : Nat) : Sha256St :=
  let S1 := rotr32 st.e 6 ^^^ rotr32 st.e 11 ^^^ rotr32 st.e 25
  let ch := (st.e &&& st.f) ^^^ (not32 st.e &&& st.g)
  let temp1 := w32 (st.h + S1 + ch + sha256K.getD i 0 + W.getD i 0)
  let S0 := rotr32 st.a 2 ^^^ rotr32 st.a 13 ^^^ rotr32 st.a 22
  let maj := (st.a &&& st.b) ^^^ (st.a &&& st.c) ^^^ (st.b &&& st.c)
  let temp2 := w32 (S0 + maj)
  ⟨w32 (temp1 + temp2), st.a, st.b, st.c, w32 (st.d + temp1), st.e, st.f, st.g⟩

/-- Process one 64-byte block of the SHA-256 compression function. -/
def sha256Block (st : Sha256St) (block : List Nat) : Sha256St :=
  let W := sha256Schedule (wordsBE block)
  let r := (List.range 64).foldl (sha256Round W) st
  ⟨w32 (st.a + r.a), w32 (st.b + r.b), w32 (st.c + r.c), w32 (st.d + r.d),
   w32 (st.e + r.e), w32 (st.f + r.f), w32 (st.g + r.g), w32 (st.h + r.h)⟩

/-- SHA-256 digest (32 bytes) of a byte list. -/
def sha256Bytes (msg : List Nat) : List Nat :=
  let st := (chunks64 (padMessage be8 msg)).foldl sha256Block
    ⟨1779033703, 3144134277, 1013904242, 2773480762,
     1359893119, 2600822924, 528734635, 1541459225⟩
  be4 st.a ++ be4 st.b ++ be4 st.c ++ be4 st.d ++
    be4 st.e ++ be4 st.f ++ be4 st.g ++ be4 st.h

/-- `hashlib.sha256(s.encode()).hexdigest()`. -/
def sha256hex (s : Str) : Str := (sha256Bytes (utf8Bytes s)).flatMap byteHex

/-! ## Deployment ordering (claim C1)

`MasterComplianceDeployer.calculate_deployment_order` sorts the discovered
projects by priority, builds `dependency_graph[name] = deps`, and calls
`_topological_sort`, a Kahn-style loop whose counters are *incremented on
the dependency* (`in_degree[dep] += 1`), popping a priority-sorted queue.

`ComprehensiveComplianceDeployer.calculate_deployment_order` does a DFS
post-order over the dependency graph, visiting priority-sorted projects as
roots and raising on a circular dependency.
-/

/-- A discovered project as both orderings consume it:
name, integer priority, declared dependency names. -/
structure Proj where
  name : Str
  priority : Nat
  deps : List Str

/-- Stable insertion step for priority sorting (Python's `sorted` is stable). -/
def insertByPriority (p : Proj) : List Proj → List Proj
  | [] => [p]
  | q :: qs =>
    if p.priority ≤ q.priority then p :: q :: qs else q :: insertByPriority p qs

/-- Stable sort of projects by ascending priority (Python `sorted(key=priority)`). -/
def sortByPriority (l : List Proj) : List Proj :=
  l.foldr insertByPriority []

/-- Priority lookup used when the Kahn queue is re-sorted:
`self.projects[x].priority if x in self.projects else 999`. -/
def priorityOf (projs : List Proj) (n : Str) : Nat :=
  match projs.find? (fun p => p.name == n) with
  | some p => p.priority
  | none => 999

/-- Stable insertion step for sorting queue entries by project priority. -/
def insertByPrio (projs : List Proj) (n : Str) : List Str → List Str
  | [] => [n]
  | m :: ms =>
    if priorityOf projs n ≤ priorityOf projs m then n :: m :: ms
    else m :: insertByPrio projs n ms

/-- `queue.sort(key=lambda x: priority)` — stable sort of the ready queue. -/
def sortQueue (projs : List Proj) (q : List Str) : List Str :=
  q.foldr (insertByPrio projs) []

/-- `in_degree[dep] += 1` / `-= 1` guarded by `if dep in in_degree`. -/
def adjustDegree (f : Nat → Nat) (d : List (Str × Nat)) (k : Str) : List (Str × Nat) :=
  d.map (fun e => if e.1 == k then (e.1, f e.2) else e)

/-- One Kahn pop: decrement the counter of each declared dependency of the
popped node, enqueueing a dependency whose counter reaches zero (appended at
the end of the queue, as Python's `queue.append`). -/
def kahnRelax (deps : List Str) (deg : List (Str × Nat)) (queue : List Str) :
    List (Str × Nat) × List Str :=
  deps.foldl
    (fun acc dep =>
      match (acc.1.find? (fun e => e.1 == dep)) with
      | none => acc
      | some e =>
        let d2 := adjustDegree (fun n => n - 1) acc.1 dep
        if e.2 - 1 = 0 then (d2, acc.2 ++ [dep]) else (d2, acc.2))
    (deg, queue)

/-- The Kahn-style loop of `MasterComplianceDeployer._topological_sort`
(fuel-based structural recursion; every iteration pops one queue entry and
each node is enqueued at most once, so `fuel = number of nodes` suffices). -/
def kahnLoop : Nat → List (Str × List Str) → List Proj → List (Str × Nat) →
    List Str → List Str → List Str
  | 0, _, _, _, _, acc => acc.reverse
  | fuel + 1, graph, projs, deg, queue, acc =>
    match sortQueue projs queue with
    | [] => acc.reverse
    | node :: rest =>
      let deps := match graph.find? (fun e => e.1 == node) with
        | some e => e.2
        | none => []
      let r := kahnRelax deps deg rest
      kahnLoop fuel graph projs r.1 r.2 (node :: acc)

/-- `MasterComplianceDeployer.calculate_deployment_order` followed by
`_topological_sort`: counters are initialised to zero and *incremented on
each declared dependency* of every node, so the counter of a node counts the
projects that name it as a dependency. -/
def masterDeploymentOrder (projects : List Proj) : List Str :=
  let sortedProjects := sortByPriority projects
  let graph : List (Str × List Str) := sortedProjects.map (fun p => (p.name, p.deps))
  let deg0 : List (Str × Nat) := graph.map (fun e => (e.1, 0))
  let deg := graph.foldl
    (fun d e => e.2.foldl (fun d2 dep =>
      if (d2.find? (fun x => x.1 == dep)).isSome then
        adjustDegree (fun n => n + 1) d2 dep
      else d2) d)
    deg0
  let queue := (deg.filter (fun e => e.2 == 0)).map (fun e => e.1)
  kahnLoop graph.length graph projects deg queue []

/-- The recursive `dfs` of
`ComprehensiveComplianceDeployer.calculate_deployment_order`: a DFS
post-order that raises `ValueError` on a circular dependency.  State is
`(temp-visited, visited, order)`; dependencies not in the project set are
skipped (`if dep in self.projects`).  Fuel bounds the recursion depth. -/
def compDfs (graph : List (Str × List Str)) (names : List Str) :
    Nat → List Str → List Str × List Str → Str →
    Except Str (List Str × List Str)
  | 0, _, _, _ => .error (str "fuel exhausted")
  | fuel + 1, temp, st, node =>
    if temp.contains node then .error (str "Circular dependency detected")
    else if st.1.contains node then .ok st
    else
      let deps := match graph.find? (fun e => e.1 == node) with
        | some e => e.2
        | none => []
      let deps2 := deps.filter (fun d => names.contains d)
      match deps2.foldlM (fun acc dep => compDfs graph names fuel (node :: temp) acc dep) st with
      | .error e => .error e
      | .ok st2 => .ok (node :: st2.1, st2.2 ++ [node])

/-- `ComprehensiveComplianceDeployer.calculate_deployment_order`: DFS
post-order over priority-sorted roots; dependencies come out *before* the
projects that declare them. -/
def compDeploymentOrder (projects : List Proj) : Except Str (List Str) :=
  let graph : List (Str × List Str) := projects.map (fun p => (p.name, p.deps))
  let names := projects.map (·.name)
  let roots := (sortByPriority projects).map (·.name)
  match roots.foldlM
      (fun st root =>
        if st.1.contains root then .ok st
        else compDfs graph names (projects.length + 1) [] st root)
      (([], []) : List Str × List Str) with
  | .error e => .error e
  | .ok st => .ok st.2

/-! ## Security Audit Processor (claims C8 and C2)

`SecurityAuditProcessor._extract_vulnerabilities` splits the document on the
literal marker `### N. Vulnerability:` and parses each remaining segment via
`_parse_vulnerability_section`, passing the segment position
(`enumerate(vuln_sections[1:], 1)`) as `vuln_num`, from which the
identifier `VULN-%03d` is synthesized.  A segment whose first line has no
title (`re.search(r'^([^:]+):', lines[0])` fails) is skipped.

The `Vuln` record carries the fields the verified claims reference
(identifier, title, severity, CWE).  The remaining narrative fields of the
Python dataclass (summary, description, reproduction steps, root cause,
mitigation, patch, PoC, impact analyses, the always-empty affected-file
list, status, timestamps) are extracted by analogous anchored scans with
independent defaults and are not referenced by any claim, so they are not
modelled.
-/

/-- Python's `\w` character class (ASCII part: letters, digits, underscore). -/
def isWordChar (c : Char) : Bool := c.isAlphanum || c = '_'

/-- Python's `str.strip()` / `\s` whitespace set. -/
def isPySpace (c : Char) : Bool :=
  c = ' ' || c = '\t' || c = '\n' || c = '\r' || c = '\x0b' || c = '\x0c'

/-- Python's `str.strip()`: remove leading and trailing whitespace. -/
def pyStrip (s : Str) : Str :=
  ((s.dropWhile isPySpace).reverse.dropWhile isPySpace).reverse

/-- Python's `str.split(sep)` for a one-character separator. -/
def splitOnChar (sep : Char) (s : Str) : List Str :=
  s.foldr
    (fun c acc =>
      if c = sep then [] :: acc
      else match acc with
        | [] => [[c]]
        | h :: t => (c :: h) :: t)
    [[]]

/-- Match the split marker `### \d+\. Vulnerability:` at the head of the
list, returning the remainder after the marker. -/
def matchVulnMarker (l : List Char) : Option (List Char) :=
  match l with
  | '#' :: '#' :: '#' :: ' ' :: rest =>
    if (rest.takeWhile Char.isDigit).isEmpty then none
    else
      match rest.dropWhile Char.isDigit with
      | '.' :: ' ' :: r2 =>
        if startsList r2 (str "Vulnerability:") then some (r2.drop 14) else none
      | _ => none
  | _ => none

/-- Scanner for `re.split(r'### \d+\. Vulnerability:', content)`:
leftmost, non-overlapping occurrences of the marker cut the document.
Fuel-based structural recursion (one character or one marker is consumed
per step, so `length + 1` is enough fuel). -/
def splitVulnAux : Nat → List Char → List Char → List (List Char)
  | 0, rem, cur => [cur.reverse ++ rem]
  | _ + 1, [], cur => [cur.reverse]
  | fuel + 1, c :: rest, cur =>
    match matchVulnMarker (c :: rest) with
    | some after => cur.reverse :: splitVulnAux fuel after []
    | none => splitVulnAux fuel rest (c :: cur)

/-- `re.split(r'### \d+\. Vulnerability:', content)`. -/
def splitVulnSections (content : Str) : List Str :=
  splitVulnAux (content.length + 1) content []

/-- The `Severity` enumeration of the audit processor. -/
inductive Severity
  | critical
  | high
  | medium
  | low
  | info
deriving DecidableEq

/-- `Severity(value)` — the enum constructor lookup on the five labels. -/
def Severity.ofStr (s : Str) : Option Severity :=
  if s = str "CRITICAL" then some .critical
  else if s = str "HIGH" then some .high
  else if s = str "MEDIUM" then some .medium
  else if s = str "LOW" then some .low
  else if s = str "INFO" then some .info
  else none

/-- `severity.value` — the string label of a severity. -/
def Severity.value : Severity → Str
  | .critical => str "CRITICAL"
  | .high => str "HIGH"
  | .medium => str "MEDIUM"
  | .low => str "LOW"
  | .info => str "INFO"

/-- Leftmost occurrence of the literal `marker` followed by at least one
`\w` character; returns the maximal word run after the marker (the regex
capture `(\w+)`). -/
def findWordAfter (marker : Str) : Str → Option Str
  | [] => none
  | c :: t =>
    if startsList (c :: t) marker then
      let w := ((c :: t).drop marker.length).takeWhile isWordChar
      if w.isEmpty then findWordAfter marker t else some w
    else findWordAfter marker t

/-- `re.search(r'\*\*Severity\*\*: (\w+)', section)` with the two defaults:
no match ⇒ MEDIUM, unknown label ⇒ MEDIUM (the `except ValueError` branch). -/
def parseSeverity (sect : Str) : Severity :=
  match findWordAfter (str "**Severity**: ") sect with
  | none => .medium
  | some w => (Severity.ofStr w).getD .medium

/-- Leftmost occurrence of `\*\*CWE\*\*: (CWE-\d+)`; default `CWE-Unknown`. -/
def parseCwe : Str → Str
  | [] => str "CWE-Unknown"
  | c :: t =>
    if startsList (c :: t) (str "**CWE**: CWE-") then
      let ds := ((c :: t).drop 13).takeWhile Char.isDigit
      if ds.isEmpty then parseCwe t else str "CWE-" ++ ds
    else parseCwe t

/-- Decimal digits of a natural number. -/
def natDigits (n : Nat) : Str := (Nat.repr n).data

/-- Python's `'VULN-%03d' % n`. -/
def vulnId (n : Nat) : Str :=
  str "VULN-" ++
    (if n < 10 then '0' :: '0' :: natDigits n
     else if n < 100 then '0' :: natDigits n
     else natDigits n)

/-- One parsed vulnerability (the claim-relevant fields). -/
structure Vuln where
  id : Str
  title : Str
  severity : Severity
  cwe : Str
deriving DecidableEq

/-- `_parse_vulnerability_section`: the segment is skipped (`None`) iff the
title pattern `^([^:]+):` fails on the first line of the stripped segment;
otherwise a `Vulnerability` with `id = 'VULN-%03d' % vuln_num` is built. -/
def parseVulnSection (sect : Str) (vulnNum : Nat) : Option Vuln :=
  let lines := splitOnChar '\n' (pyStrip sect)
  let line0 := lines.headD []
  let t := line0.takeWhile (fun c => c ≠ ':')
  if t.isEmpty || t.length = line0.length then none
  else some
    { id := vulnId vulnNum
      title := pyStrip t
      severity := parseSeverity sect
      cwe := parseCwe sect }

/-- `enumerate(l, n)`. -/
def enumFrom : Nat → List α → List (Nat × α)
  | _, [] => []
  | n, x :: xs => (n, x) :: enumFrom (n + 1) xs

/-- `SecurityAuditProcessor._extract_vulnerabilities`: split on the marker,
drop the preamble, parse each remaining segment with its 1-based segment
position as `vuln_num`, skipping segments that fail to parse. -/
def extractVulnerabilities (content : Str) : List Vuln :=
  match splitVulnSections content with
  | [] => []
  | _ :: sections => (enumFrom 1 sections).filterMap (fun p => parseVulnSection p.2 p.1)

/-! ## Security gating by the orchestrators (claim C2)

`EnhancedMasterDeployer.run_full_deployment` processes the security audits
before delegating compliance, build validation and deployment;
`process_security_audits` returns `False` as soon as a processed audit
yields a CRITICAL blocker (with `block_deployment_on_critical`), a HIGH
blocker (with `block_deployment_on_high`), or parsing raises while
`require_security_review` is set.

`ComprehensiveComplianceDeployer.run_comprehensive_deployment` discovers
projects, processes the audits, and aborts before the compliance phase when
the summed CRITICAL count is positive and `block_deployment_on_critical`
is set.

Audit files are an external input: each one either does not exist on disk,
raises while being parsed, or parses to a vulnerability list.  The Security
Audit Processor module resolution (a soft dependency that silently
degrades to a no-op when unavailable) is modelled by a boolean.
-/

/-- What happens to one audit file handed to an orchestrator. -/
inductive AuditOutcome
  | missing
  | parseError
  | parsed (vulns : List Vuln)
deriving DecidableEq

/-- `SecurityAuditProcessor.create_deployment_blockers`: one blocker per
CRITICAL or HIGH vulnerability, carrying `severity.value`. -/
def deploymentBlockers (vulns : List Vuln) : List Str :=
  (vulns.filter (fun v => v.severity = .critical ∨ v.severity = .high)).map
    (fun v => v.severity.value)

/-- The `security_audit` section of the Enhanced Master Deployer's default
configuration (`_create_default_config`). -/
structure EnhSecurityConfig where
  blockOnCritical : Bool
  blockOnHigh : Bool
  requireSecurityReview : Bool

/-- Defaults: `block_deployment_on_critical: True`,
`block_deployment_on_high: False`, `require_security_review: True`. -/
def enhDefaultSecurity : EnhSecurityConfig := ⟨true, false, true⟩

/-- The loop of `EnhancedMasterDeployer.process_security_audits`:
missing files are skipped; a parse exception fails the run iff
`require_security_review`; CRITICAL (resp. HIGH) blockers fail the run
under the corresponding block option. -/
def enhProcessAudits (cfg : EnhSecurityConfig) : List AuditOutcome → Bool
  | [] => true
  | .missing :: rest => enhProcessAudits cfg rest
  | .parseError :: rest =>
    if cfg.requireSecurityReview then false else enhProcessAudits cfg rest
  | .parsed vs :: rest =>
    let blockers := deploymentBlockers vs
    if cfg.blockOnCritical && blockers.any (fun b => b = str "CRITICAL") then false
    else if cfg.blockOnHigh && blockers.any (fun b => b = str "HIGH") then false
    else enhProcessAudits cfg rest

/-- Pipeline phases whose execution claim C2 tracks. -/
inductive Phase
  | securityAudits
  | compliance
  | build
  | deploy
deriving DecidableEq

/-- Environment of one Enhanced Master Deployer run: whether the Security
Audit Processor module resolved, the audit-file outcomes, and the results
the delegated master-deployer phases would report. -/
structure EnhWorld where
  processorAvailable : Bool
  auditOutcomes : List AuditOutcome
  complianceOk : Bool
  buildOk : Bool
  deployOk : Bool

/-- `EnhancedMasterDeployer.run_full_deployment` with the default
configuration sections enabled and no skip flags: the security gate, then
compliance, build validation and deployment, short-circuiting on the first
failure.  Returns the overall result and the phases that were executed. -/
def enhRunFullDeployment (cfg : EnhSecurityConfig) (w : EnhWorld) :
    Bool × List Phase :=
  if w.auditOutcomes.isEmpty then
    -- "No security audit files provided - skipping security checks"
    if ¬ w.complianceOk then (false, [.compliance])
    else if ¬ w.buildOk then (false, [.compliance, .build])
    else if ¬ w.deployOk then (false, [.compliance, .build, .deploy])
    else (true, [.compliance, .build, .deploy])
  else
    let gate := if w.processorAvailable then enhProcessAudits cfg w.auditOutcomes else true
    if ¬ gate then (false, [.securityAudits])
    else if ¬ w.complianceOk then (false, [.securityAudits, .compliance])
    else if ¬ w.buildOk then (false, [.securityAudits, .compliance, .build])
    else if ¬ w.deployOk then (false, [.securityAudits, .compliance, .build, .deploy])
    else (true, [.securityAudits, .compliance, .build, .deploy])

/-- `ComprehensiveComplianceDeployer.process_security_audits`: with the
processor available, each existing, parseable audit contributes its count
of CRITICAL vulnerabilities; failures are logged and skipped. -/
def compAuditCriticalCounts (avail : Bool) (outcomes : List AuditOutcome) : List Nat :=
  if ¬ avail then []
  else outcomes.filterMap (fun o =>
    match o with
    | .missing => none
    | .parseError => none
    | .parsed vs => some (vs.countP (fun v => v.severity = .critical)))

/-- Environment of one Comprehensive Compliance Deployer run. -/
structure CompWorld where
  processorAvailable : Bool
  auditOutcomes : List AuditOutcome
  projects : List Proj

/-- The `security` section of `_create_comprehensive_config`. -/
structure CompSecurityConfig where
  blockOnCritical : Bool
  blockOnHigh : Bool

/-- Defaults: `block_deployment_on_critical: True`,
`block_deployment_on_high: False`. -/
def compDefaultSecurity : CompSecurityConfig := ⟨true, false⟩

/-- `ComprehensiveComplianceDeployer.run_comprehensive_deployment` with all
sections enabled and no skip flags: discovery, the security gate (audits
are processed only when audit files were supplied), then the concurrent
compliance phase, build validation, ordering and deployment.  The run only
returns `False` early (no projects, or the CRITICAL gate); after the gate
it always completes and returns `True`. -/
def compRunFullDeployment (cfg : CompSecurityConfig) (w : CompWorld) :
    Bool × List Phase :=
  if w.projects.isEmpty then (false, [])
  else if w.auditOutcomes.isEmpty then
    (true, [.compliance, .build, .deploy])
  else
    let criticalBlockers :=
      (compAuditCriticalCounts w.processorAvailable w.auditOutcomes).sum
    if 0 < criticalBlockers && cfg.blockOnCritical then
      (false, [.securityAudits])
    else (true, [.securityAudits, .compliance, .build, .deploy])

/-! ## Crash Heuristics Engine (claims C4, C5, C6, C9, C10)

Embedding of `LeanEmbeddingIntelligence` from
`tools/embedding_intelligence/lean_crash_analyzer.py`.  A crash report is a
record of optional string fields plus the optional `input_info` record with
an optional integer size; score arithmetic on the fixed small constants is
modelled with exact rationals.  Python's process-seeded builtin `hash` on
strings, the `google.generativeai` import/API-key/embedding call, and
`np.linalg.norm` (a floating-point quantity) are environment parameters.
-/

/-- The `input_info` sub-record of a crash report. -/
structure InputInfo where
  size : Option Int
deriving DecidableEq

/-- A crash report at the analyzer's interface:
`crash_type`, `error_message`, `stack_trace` (string or absent) and
`input_info` (`none` models an absent or empty dict). -/
structure CrashReport where
  crash_type : Option Str
  error_message : Option Str
  stack_trace : Option Str
  input_info : Option InputInfo
deriving DecidableEq

/-- `crash_report.get('input_info', {}).get('size', 0)`. -/
def reportInputSize (r : CrashReport) : Int :=
  ((r.input_info).bind (·.size)).getD 0

/-! ### `_extract_top_function`

`re.search` is applied to each of the first five stack-trace lines with the
patterns `#0.*in\s+(\w+)`, `at\s+(\w+)`, `(\w+)\s*\(` and
`in\s+(\w+)\s+at`, in that order, returning the first capture. -/

/-- After an `i`: match `n`, one or more `\s`, then capture `\w+`
(the tail of `in\s+(\w+)`). -/
def matchInWsWord : List Char → Option Str
  | 'n' :: r2 =>
    if (r2.takeWhile isPySpace).isEmpty then none
    else
      let w := (r2.dropWhile isPySpace).takeWhile isWordChar
      if w.isEmpty then none else some w
  | _ => none

/-- Rightmost match of `in\s+(\w+)` (the greedy `.*` in `#0.*in\s+(\w+)`
selects the rightmost completion). -/
def lastInWsWord : List Char → Option Str
  | [] => none
  | c :: rest =>
    match lastInWsWord rest with
    | some w => some w
    | none => if c = 'i' then matchInWsWord rest else none

/-- Leftmost occurrence of `#0`, returning the suffix after it. -/
def findAfterHash0 : List Char → Option (List Char)
  | [] => none
  | '#' :: '0' :: rest => some rest
  | _ :: rest => findAfterHash0 rest

/-- `re.search(r'#0.*in\s+(\w+)', line)`: a match exists iff some
`in\s+\w+` completion follows the leftmost `#0`; greediness selects the
rightmost completion. -/
def searchHash0InWord (line : Str) : Option Str :=
  match findAfterHash0 line with
  | some suffix => lastInWsWord suffix
  | none => none

/-- After an `a`: match `t`, one or more `\s`, then capture `\w+`. -/
def matchAtWsWord : List Char → Option Str
  | 't' :: r2 =>
    if (r2.takeWhile isPySpace).isEmpty then none
    else
      let w := (r2.dropWhile isPySpace).takeWhile isWordChar
      if w.isEmpty then none else some w
  | _ => none

/-- `re.search(r'at\s+(\w+)', line)`: leftmost occurrence. -/
def searchAtWsWord : List Char → Option Str
  | [] => none
  | c :: rest =>
    match (if c = 'a' then matchAtWsWord rest else none) with
    | some w => some w
    | none => searchAtWsWord rest

/-- `re.search(r'(\w+)\s*\(', line)`: leftmost word run followed by
optional whitespace and `(`; the capture is the maximal word run. -/
def searchWordParen : List Char → Option Str
  | [] => none
  | c :: rest =>
    if isWordChar c then
      let after := (rest.dropWhile isWordChar).dropWhile isPySpace
      if after.head? = some '(' then some (c :: rest.takeWhile isWordChar)
      else searchWordParen rest
    else searchWordParen rest

/-- After an `i`: match `n`, `\s+`, capture `\w+`, `\s+`, then literal `at`. -/
def matchInWsWordWsAt : List Char → Option Str
  | 'n' :: r2 =>
    if (r2.takeWhile isPySpace).isEmpty then none
    else
      let r3 := r2.dropWhile isPySpace
      let w := r3.takeWhile isWordChar
      if w.isEmpty then none
      else
        let r4 := r3.dropWhile isWordChar
        if (r4.takeWhile isPySpace).isEmpty then none
        else
          match r4.dropWhile isPySpace with
          | 'a' :: 't' :: _ => some w
          | _ => none
  | _ => none

/-- `re.search(r'in\s+(\w+)\s+at', line)`: leftmost occurrence. -/
def searchInWsWordWsAt : List Char → Option Str
  | [] => none
  | c :: rest =>
    match (if c = 'i' then matchInWsWordWsAt rest else none) with
    | some w => some w
    | none => searchInWsWordWsAt rest

/-- Try the four patterns in order on one line. -/
def tryLinePatterns (line : Str) : Option Str :=
  match searchHash0InWord line with
  | some w => some w
  | none =>
    match searchAtWsWord line with
    | some w => some w
    | none =>
      match searchWordParen line with
      | some w => some w
      | none => searchInWsWordWsAt line

/-- First pattern hit over a list of lines. -/
def firstLineHit : List Str → Option Str
  | [] => none
  | l :: ls =>
    match tryLinePatterns l with
    | some w => some w
    | none => firstLineHit ls

/-- `LeanEmbeddingIntelligence._extract_top_function`. -/
def extractTopFunction (stackTrace : Str) : Option Str :=
  if stackTrace.isEmpty then none
  else firstLineHit ((splitOnChar '\n' stackTrace).take 5)

/-! ### `_normalize_error_message`

Three `re.sub` passes — `0x[0-9a-f]+ → ADDR`, `:\d+ → :LINE`,
`\d+ → NUM` — then truncation to 100 characters.  Each pass is a
left-to-right scanner replacing leftmost non-overlapping greedy matches,
written with structural fuel recursion (the fuel `length` is enough: every
step consumes at least one character). -/

/-- The character class `[0-9a-f]`. -/
def isHexLower (c : Char) : Bool :=
  ('0' ≤ c && c ≤ '9') || ('a' ≤ c && c ≤ 'f')

/-- `re.sub(r'0x[0-9a-f]+', 'ADDR', s)` (fuel version). -/
def sub1F : Nat → List Char → List Char
  | 0, l => l
  | _ + 1, [] => []
  | fuel + 1, c :: rest =>
    if c = '0' ∧ rest.head? = some 'x' ∧ ¬(rest.tail.takeWhile isHexLower).isEmpty then
      str "ADDR" ++ sub1F fuel (rest.tail.dropWhile isHexLower)
    else c :: sub1F fuel rest

/-- `re.sub(r'0x[0-9a-f]+', 'ADDR', s)`. -/
def sub1 (l : List Char) : List Char := sub1F l.length l

/-- `re.sub(r':\d+', ':LINE', s)` (fuel version). -/
def sub2F : Nat → List Char → List Char
  | 0, l => l
  | _ + 1, [] => []
  | fuel + 1, c :: rest =>
    if c = ':' ∧ ¬(rest.takeWhile Char.isDigit).isEmpty then
      str ":LINE" ++ sub2F fuel (rest.dropWhile Char.isDigit)
    else c :: sub2F fuel rest

/-- `re.sub(r':\d+', ':LINE', s)`. -/
def sub2 (l : List Char) : List Char := sub2F l.length l

/-- `re.sub(r'\d+', 'NUM', s)` (fuel version). -/
def sub3F : Nat → List Char → List Char
  | 0, l => l
  | _ + 1, [] => []
  | fuel + 1, c :: rest =>
    if c.isDigit then str "NUM" ++ sub3F fuel (rest.dropWhile Char.isDigit)
    else c :: sub3F fuel rest

/-- `re.sub(r'\d+', 'NUM', s)`. -/
def sub3 (l : List Char) : List Char := sub3F l.length l

/-- `LeanEmbeddingIntelligence._normalize_error_message`. -/
def normalizeErrorMessage (msg : Str) : Str :=
  if msg.isEmpty then []
  else (sub3 (sub2 (sub1 msg))).take 100

/-! ### Scores, categories, deduplication, clustering, pattern matches -/

/-- The six high-risk substrings of `_calculate_exploit_risk`. -/
def highRiskPatterns : List Str :=
  [str "heap-buffer-overflow", str "use-after-free", str "double-free",
   str "buffer overflow", str "memory corruption", str "segmentation fault"]

/-- `_calculate_exploit_risk`: 0.3 per high-risk substring found in the
lower-cased crash type or error message, plus 0.2 (size > 1000) or 0.1
(size > 100), clamped to 1.0. -/
def calculateExploitRisk (r : CrashReport) : ℚ :=
  let ctype := lowerStr (r.crash_type.getD [])
  let msg := lowerStr (r.error_message.getD [])
  let risk := highRiskPatterns.foldl
    (fun acc p => if containsSub ctype p || containsSub msg p then acc + 3 / 10 else acc)
    0
  let sz := reportInputSize r
  let risk2 := if 1000 < sz then risk + 2 / 10 else if 100 < sz then risk + 1 / 10 else risk
  min risk2 1

/-- `_categorize_vulnerability`: first matching rule on the lower-cased
concatenation of crash type and error message. -/
def categorizeVulnerability (r : CrashReport) : Str :=
  let t := lowerStr (r.crash_type.getD []) ++ lowerStr (r.error_message.getD [])
  if containsSub t (str "buffer") then str "buffer_overflow"
  else if containsSub t (str "use-after-free") then str "use_after_free"
  else if containsSub t (str "null") then str "null_pointer_dereference"
  else if containsSub t (str "segmentation") then str "memory_corruption"
  else str "other"

/-- `_calculate_priority_score`: exploit risk plus a 0.2 memory bonus
(crash type contains `memory`) plus a 0.1 large-input bonus, clamped. -/
def calculatePriorityScore (r : CrashReport) : ℚ :=
  let exploitRisk := calculateExploitRisk r
  let memoryBonus : ℚ :=
    if containsSub (lowerStr (r.crash_type.getD [])) (str "memory") then 2 / 10 else 0
  let sizeBonus : ℚ := if 1000 < reportInputSize r then 1 / 10 else 0
  min (exploitRisk + memoryBonus + sizeBonus) 1

/-- `'|'.join(filter(None, parts))` with Python `None` mapped to `[]`. -/
def joinBar (parts : List Str) : Str :=
  List.intercalate (str "|") (parts.filter (fun p => ¬p.isEmpty))

/-- Decimal digits of an integer (Python `str(int)`). -/
def intDigits (i : Int) : Str :=
  if i < 0 then '-' :: natDigits (-i).toNat else natDigits i.toNat

/-- `_generate_fast_signature`: md5 of
`crash_type | top_function | str(hash(error_message) % 10000)` truncated to
12 hex characters.  `pyHash` is Python's process-seeded builtin string
hash; `%` on its possibly negative result is Python's floor-mod (`emod`). -/
def generateFastSignature (pyHash : Str → Int) (r : CrashReport) : Str :=
  let ctype := r.crash_type.getD (str "unknown")
  let topf := (extractTopFunction (r.stack_trace.getD [])).getD []
  let hstr := natDigits ((pyHash (r.error_message.getD [])).emod 10000).toNat
  (md5hex (joinBar [ctype, topf, hstr])).take 12

/-- `_generate_dedup_key`: md5 of
`crash_type | top_function | normalized_message` truncated to 16 hex
characters. -/
def generateDedupKey (r : CrashReport) : Str :=
  let ctype := r.crash_type.getD (str "unknown")
  let topf := (extractTopFunction (r.stack_trace.getD [])).getD []
  let norm := normalizeErrorMessage (r.error_message.getD [])
  (md5hex (joinBar [ctype, topf, norm])).take 16

/-- The `cluster_analysis` record. -/
structure ClusterInfo where
  is_duplicate : Bool
  is_novel : Bool
  cluster_size : Nat
  deduplication_key : Str
deriving DecidableEq

/-- `_fast_cluster_analysis`: a key already present reports
`cluster_size = len(prior observation timestamps)` and duplicate status;
a fresh key reports novel with size 1.  Either way the current timestamp
is appended to the key's list. -/
def fastClusterAnalysis (clusters : List (Str × List Nat)) (now : Nat) (key : Str) :
    ClusterInfo × List (Str × List Nat) :=
  match clusters.find? (fun e => e.1 == key) with
  | some e =>
    (⟨true, false, e.2.length, key⟩,
     clusters.map (fun x => if x.1 == key then (x.1, x.2 ++ [now]) else x))
  | none => (⟨false, true, 1, key⟩, clusters ++ [(key, [now])])

/-- One vulnerability-pattern match. -/
structure PatternMatch where
  pattern_name : Str
  severity : Str
  confidence : ℚ
  cve_examples : List Str
deriving DecidableEq

/-- `_load_vulnerability_patterns`: the fixed four-entry table. -/
def vulnerabilityPatterns : List (Str × List Str × Str × List Str) :=
  [(str "heap_buffer_overflow",
    ([str "heap-buffer-overflow", str "heap overflow"], str "critical",
     [str "CVE-2021-44228", str "CVE-2020-1472"])),
   (str "use_after_free",
    ([str "use-after-free", str "freed memory"], str "high",
     [str "CVE-2021-30563", str "CVE-2020-6449"])),
   (str "buffer_overflow",
    ([str "buffer overflow", str "stack-buffer-overflow"], str "high",
     [str "CVE-2021-3156", str "CVE-2020-14386"])),
   (str "null_pointer_dereference",
    ([str "null pointer", str "segmentation fault"], str "medium",
     [str "CVE-2021-22555"]))]

/-- `_match_vulnerability_patterns`: keyword containment in the lower-cased
concatenation of crash type and error message, confidence fixed at 0.8. -/
def matchVulnerabilityPatterns (r : CrashReport) : List PatternMatch :=
  let t := lowerStr (r.crash_type.getD []) ++ lowerStr (r.error_message.getD [])
  vulnerabilityPatterns.filterMap (fun e =>
    if e.2.1.any (fun kw => containsSub t kw) then
      some ⟨e.1, e.2.2.1, 4 / 5, e.2.2.2⟩
    else none)

/-! ### Recommendations and synthetic test cases -/

/-- One recommendation record (`type`, title, description, actions). -/
structure Recommendation where
  rtype : Str
  title : Str
  description : Str
  actions : List Str
deriving DecidableEq

/-- Python's `'%.2f'`-style rendering used in the f-string
`f'... (score: {priority:.2f}) ...'` (round-half-up approximation of the
float formatting; no claim depends on the digits). -/
def fmt2 (q : ℚ) : Str :=
  let n := (q * 100 + 1 / 2).floor.toNat
  natDigits (n / 100) ++ str "." ++
    (if n % 100 < 10 then '0' :: natDigits (n % 100) else natDigits (n % 100))

/-- `_generate_recommendations` evaluated on the fields it reads:
priority score, vulnerability category, cluster size. -/
def generateRecommendations (prio : ℚ) (cat : Str) (clusterSize : Nat) :
    List Recommendation :=
  (if 4 / 5 < prio then
    [⟨str "immediate_action",
      str "Critical crash requires immediate investigation",
      str "High priority crash (score: " ++ fmt2 prio ++
        str ") with significant exploit potential",
      [str "Investigate crash location", str "Implement bounds checking",
       str "Add regression test"]⟩]
   else []) ++
  (if cat = str "buffer_overflow" then
    [⟨str "mitigation", str "Buffer overflow mitigation",
      str "Implement safe string handling",
      [str "Replace unsafe functions", str "Add input validation",
       str "Use safe alternatives"]⟩]
   else []) ++
  (if 1 < clusterSize then
    [⟨str "systematic_fix", str "Multiple similar crashes detected",
      str "This appears to be part of a systematic issue",
      [str "Review related crashes", str "Fix root cause",
       str "Enhance test coverage"]⟩]
   else [])

/-- One synthetic test case (`type`, description, size, byte pattern). -/
structure TestCase where
  ttype : Str
  description : Str
  input_size : Int
  pattern : Str
deriving DecidableEq

/-- `'c' * n` with Python's empty result on a non-positive count. -/
def repChar (c : Char) (n : Int) : Str := List.replicate n.toNat c

/-- `s * n` for a string. -/
def repStr (s : Str) (n : Int) : Str := (List.replicate n.toNat s).flatten

/-- `_generate_smart_test_cases`: three size-based tests built from
`input_info.get('size', 100)`, a fourth for the buffer-overflow category,
capped at ten.  (`'\\x00'` in the Python source is the four-character
string backslash-x-0-0.) -/
def generateSmartTestCases (r : CrashReport) (cat : Str) : List TestCase :=
  let base : Int := ((r.input_info).bind (·.size)).getD 100
  let cases :=
    [⟨str "boundary_test", str "Test boundary condition", base - 1,
      if 1 < base then repChar 'A' (base - 1) else str "A"⟩,
     ⟨str "overflow_test", str "Test buffer overflow", base * 2,
      repChar 'B' (base * 2)⟩,
     ⟨str "null_bytes_test", str "Test null byte handling", base,
      repStr (str "\\x00") base⟩]
  let cases2 :=
    if cat = str "buffer_overflow" then
      cases ++ [⟨str "buffer_overflow_specific",
        str "Target buffer overflow vulnerability", base * 4,
        repStr (str "AAAA") base⟩]
    else cases
  cases2.take 10

/-! ### Engine state, selective embedding analysis, main pipeline -/

/-- Process-lifetime mutable state of one `LeanEmbeddingIntelligence`
instance: budget/cost tracking, the cluster-membership map (deduplication
key → observation timestamps), the embedding cache, the `stats` counters,
and a logical clock standing in for `time.time()`. -/
structure EngineState where
  dailyBudget : ℚ
  currentDailyCost : ℚ
  crashClusters : List (Str × List Nat)
  embeddingCache : List (Str × List ℚ)
  statsCrashes : Nat
  statsEmbeddings : Nat
  statsCacheHits : Nat
  clock : Nat
deriving DecidableEq

/-- The configuration field the pipeline branches on
(`config.get('enable_embeddings', False)`). -/
structure EngineConfig where
  enableEmbeddings : Bool
deriving DecidableEq

/-- Environment boundary: Python's process-seeded builtin `hash` on
strings, availability of the `google.generativeai` import, the
`GOOGLE_API_KEY` variable, the external embedding call (which may raise),
and `np.linalg.norm` (floating point, hence a parameter). -/
structure PyEnv where
  pyHash : Str → Int
  genaiAvailable : Bool
  apiKey : Option Str
  embedResult : Str → Except Str (List ℚ)
  vecNorm : List ℚ → ℚ

/-- The dictionary returned by `_selective_embedding_analysis` /
`_generate_new_embedding`; `none` fields model absent dictionary keys. -/
structure Phase2Result where
  embedding_analysis_used : Bool
  cache_hit : Option Bool
  estimated_cost : Option ℚ
  similar_crashes : Option (List Str)
  embedding_confidence : Option ℚ
  error_msg : Option Str
deriving DecidableEq

/-- `_create_optimized_crash_text`: crash-type line, top-function line,
truncated error line, input size when positive; hard cap 500 characters. -/
def createOptimizedCrashText (r : CrashReport) : Str :=
  let parts1 := [str "CRASH: " ++ r.crash_type.getD (str "unknown")]
  let stack := r.stack_trace.getD []
  let parts2 := parts1 ++
    (if ¬stack.isEmpty then
      match extractTopFunction stack with
      | some f => [str "FUNC: " ++ f]
      | none => []
     else [])
  let msg := r.error_message.getD []
  let parts3 := parts2 ++ (if ¬msg.isEmpty then [str "ERROR: " ++ msg.take 200] else [])
  let parts4 := parts3 ++
    (match r.input_info with
     | none => []
     | some ii =>
       let sz := ii.size.getD 0
       if 0 < sz then [str "INPUT_SIZE: " ++ intDigits sz] else [])
  (List.intercalate (str "\n") parts4).take 500

/-- `_generate_new_embedding`: a failed `google.generativeai` import or a
raising embedding call lands in the `except` branch (zero cost, error
recorded); a missing API key returns early without an `estimated_cost`
key; success caches the vector, adds `$0.0001` to the daily cost and
reports a confidence of `min(norm/100, 1)`. -/
def generateNewEmbedding (env : PyEnv) (st : EngineState) (text cacheKey : Str) :
    Phase2Result × EngineState :=
  if ¬env.genaiAvailable then
    (⟨false, none, some 0, none, none, some (str "No module named google.generativeai")⟩, st)
  else
    match env.apiKey with
    | none => (⟨false, none, none, none, none, some (str "no_api_key")⟩, st)
    | some _ =>
      match env.embedResult text with
      | .error e => (⟨false, none, some 0, none, none, some e⟩, st)
      | .ok vec =>
        let st2 := { st with
          embeddingCache := st.embeddingCache ++ [(cacheKey, vec)],
          currentDailyCost := st.currentDailyCost + 1 / 10000,
          statsEmbeddings := st.statsEmbeddings + 1 }
        (⟨true, some false, some (1 / 10000), some [],
          some (min (env.vecNorm vec / 100) 1), none⟩, st2)

/-- `_selective_embedding_analysis`: sha256 cache key over the optimized
crash text; cache hit is free (`_find_similar_crashes_fast` is a
placeholder returning no similar crashes), a miss generates a new
embedding. -/
def selectiveEmbeddingAnalysis (env : PyEnv) (st : EngineState) (r : CrashReport) :
    Phase2Result × EngineState :=
  let text := createOptimizedCrashText r
  let cacheKey := sha256hex text
  match st.embeddingCache.find? (fun e => e.1 == cacheKey) with
  | some _ =>
    (⟨true, some true, some 0, some [], none, none⟩,
     { st with statsCacheHits := st.statsCacheHits + 1 })
  | none => generateNewEmbedding env st text cacheKey

/-- `_should_use_embeddings`: budget gate first, then the enable flag, then
the five high-value criteria (any suffices). -/
def shouldUseEmbeddings (st : EngineState) (cfg : EngineConfig) (prio exploitRisk : ℚ)
    (isNovel : Bool) (numMatches : Nat) (cat : Str) : Bool :=
  if st.dailyBudget ≤ st.currentDailyCost then false
  else if ¬cfg.enableEmbeddings then false
  else
    (4 / 5 < prio) || (7 / 10 < exploitRisk) || isNovel || (numMatches = 0) ||
      containsSub (lowerStr cat) (str "critical")

/-- The `intelligence_stats` sub-record; the elapsed wall-clock time is
modelled as one logical tick. -/
structure IntelligenceStats where
  processing_time : Nat
  embedding_used : Bool
  estimated_cost : ℚ
  cache_hit : Bool
deriving DecidableEq

/-- The analysis dictionary built by a successful
`analyze_crash_intelligently` run; `embedding = none` models the absence
of the phase-2 keys when `_should_use_embeddings` declined. -/
structure Analysis where
  crash_signature : Str
  exploit_risk_score : ℚ
  vulnerability_category : Str
  deduplication_key : Str
  priority_score : ℚ
  cluster_analysis : ClusterInfo
  vulnerability_matches : List PatternMatch
  embedding : Option Phase2Result
  recommended_actions : List Recommendation
  test_cases : List TestCase
  intelligence_stats : IntelligenceStats
deriving DecidableEq

/-- The `basic_analysis` sub-record of `_fallback_analysis`. -/
structure BasicAnalysis where
  crash_type : Str
  has_stack_trace : Bool
  has_error_message : Bool
deriving DecidableEq

/-- The dictionary returned by `_fallback_analysis`. -/
structure FallbackAnalysis where
  crash_signature : Str
  fallback_mode : Bool
  basic_analysis : BasicAnalysis
deriving DecidableEq

/-- `_fallback_analysis`: signature plus `fallback_mode: True` and the
truthiness of the stack trace / error message. -/
def fallbackAnalysis (env : PyEnv) (r : CrashReport) : FallbackAnalysis :=
  ⟨generateFastSignature env.pyHash r, true,
   ⟨r.crash_type.getD (str "unknown"),
    ¬(r.stack_trace.getD []).isEmpty,
    ¬(r.error_message.getD []).isEmpty⟩⟩

/-- Result of `analyze_crash_intelligently`: the full analysis, or the
fallback dictionary when the `except` branch runs. -/
inductive AnalysisResult
  | full (a : Analysis)
  | fallback (f : FallbackAnalysis)
deriving DecidableEq

/-- The `try` body of `analyze_crash_intelligently`: phase 1 (local
enhancement — with `crash_analysis.py` absent from this repository the
base-analyzer slot is `None` and the seed dictionary is empty), the
phase-2 gate and selective embedding analysis, recommendations, test
cases, statistics.  Telemetry emission (best effort, exceptions swallowed)
does not affect the returned analysis or the engine state modelled here. -/
def analyzeBody (cfg : EngineConfig) (env : PyEnv) (st : EngineState) (r : CrashReport) :
    Analysis × EngineState :=
  let sig := generateFastSignature env.pyHash r
  let risk := calculateExploitRisk r
  let cat := categorizeVulnerability r
  let key := generateDedupKey r
  let prio := calculatePriorityScore r
  let cres := fastClusterAnalysis st.crashClusters st.clock key
  let st1 := { st with crashClusters := cres.2, clock := st.clock + 1 }
  let vmatches := matchVulnerabilityPatterns r
  let gate := shouldUseEmbeddings st1 cfg prio risk cres.1.is_novel vmatches.length cat
  let ph2 :=
    if gate then
      let p := selectiveEmbeddingAnalysis env st1 r
      (some p.1, p.2)
    else ((none : Option Phase2Result), st1)
  let recs := generateRecommendations prio cat cres.1.cluster_size
  let tests := generateSmartTestCases r cat
  let embUsed := match ph2.1 with
    | none => false
    | some p => p.embedding_analysis_used
  let estCost := match ph2.1 with
    | none => 0
    | some p => p.estimated_cost.getD 0
  let cacheHit := match ph2.1 with
    | none => false
    | some p => p.cache_hit.getD false
  let st2 := { ph2.2 with statsCrashes := ph2.2.statsCrashes + 1, clock := ph2.2.clock + 1 }
  (⟨sig, risk, cat, key, prio, cres.1, vmatches, ph2.1, recs, tests,
    ⟨1, embUsed, estCost, cacheHit⟩⟩, st2)

/-- `analyze_crash_intelligently`: on the modelled report domain (string
fields present or absent, optional integer size) no step of the `try` body
raises, so the `except` branch — which would return `_fallback_analysis` —
is never taken. -/
def analyzeCrashIntelligently (cfg : EngineConfig) (env : PyEnv) (st : EngineState)
    (r : CrashReport) : AnalysisResult × EngineState :=
  let b := analyzeBody cfg env st r
  (.full b.1, b.2)

/-! ## Theorems for the claims -/

/-- C7: copyright-header auto-remediation is idempotent — applying
`_add_copyright_header` twice yields the same file content as applying it
once, because after the first application the file starts with the exact
fixed header block, so the header is inserted exactly once. -/
theorem C7_header_remediation_idempotent (content : Str) :
    addCopyrightHeader (addCopyrightHeader content) = addCopyrightHeader content := by
  unfold addCopyrightHeader
  by_cases h : startsList content copyrightHeaderBlock = true
  · simp [h]
  · simp [h, startsList_append_self]

/-- C3 (counterexample): the claim states that a file containing only the
lower-case variant `copyright 2025 google llc` fails the header check of
each orchestrator; but the Master Compliance Deployer compiles its pattern
with `re.IGNORECASE`, so that content passes its check (the Comprehensive
Deployer's check does fail it). -/
theorem C3_lowercase_passes_master_check :
    masterHasCopyright (str "copyright 2025 google llc") = true ∧
    compHasCopyright (str "copyright 2025 google llc") = false := by decide

/-- C3 (amended): content containing `Copyright 2025 Google LLC` anywhere
passes both header checks regardless of surrounding text; content
containing only the lower-case variant fails the Comprehensive Deployer's
case-sensitive check but passes the Master Compliance Deployer's
case-insensitive (`re.IGNORECASE`) check. -/
theorem C3_copyright_check_case_sensitivity :
    (∀ u v : Str,
      masterHasCopyright (u ++ str "Copyright 2025 Google LLC" ++ v) = true ∧
      compHasCopyright (u ++ str "Copyright 2025 Google LLC" ++ v) = true) ∧
    masterHasCopyright (str "copyright 2025 google llc") = true ∧
    compHasCopyright (str "copyright 2025 google llc") = false := by
  refine ⟨fun u v => ⟨?_, ?_⟩, by decide, by decide⟩
  · unfold masterHasCopyright lowerStr
    rw [List.map_append, List.map_append]
    have hlow : (str "Copyright 2025 Google LLC").map Char.toLower =
        str "copyright 2025 google llc" := by decide
    rw [hlow]
    exact containsSub_of_middle _ _ _
  · exact containsSub_of_middle u (str "Copyright 2025 Google LLC") v

/-- C1: on the two-project instance — A with priority 1 and no
dependencies, B with priority 2 declaring A as its only dependency — the
Comprehensive Deployer's DFS post-order places A before B, while the
Master Compliance Deployer's Kahn-style sort (counters incremented on the
dependency) places B before A.  Both orders are values of deterministic
functions of the project set. -/
theorem C1_two_project_deployment_orders :
    compDeploymentOrder [⟨str "A", 1, []⟩, ⟨str "B", 2, [str "A"]⟩] =
      .ok [str "A", str "B"] ∧
    masterDeploymentOrder [⟨str "A", 1, []⟩, ⟨str "B", 2, [str "A"]⟩] =
      [str "B", str "A"] := ⟨rfl, rfl⟩

/-- A successfully parsed vulnerability section carries the identifier
synthesized from the segment position it was handed. -/
theorem parseVulnSection_id (s : Str) (n : Nat) (v : Vuln)
    (h : parseVulnSection s n = some v) : v.id = vulnId n := by
  unfold parseVulnSection at h
  dsimp only at h
  split at h
  · exact absurd h (by simp)
  · simpa using congrArg Vuln.id (Option.some.inj h).symm

set_option maxRecDepth 40000 in
/-- C8 (counterexample): a document whose first vulnerability segment
fails to parse (first line has no title colon) and whose second parses.
The claim says the surviving vulnerability is numbered `VULN-001`
(consecutive, no gaps); the code numbers it by segment position, yielding
`VULN-002`. -/
theorem C8_skipped_segment_leaves_gap :
    (extractVulnerabilities (str "# Report\n\n### 1. Vulnerability:\nno title marker here\n**Severity**: HIGH\n\n### 2. Vulnerability:\nHeap overflow in parser: bad\n**Severity**: CRITICAL\n**CWE**: CWE-787\n")).map (·.id) =
      [str "VULN-002"] ∧
    ¬ ((extractVulnerabilities (str "# Report\n\n### 1. Vulnerability:\nno title marker here\n**Severity**: HIGH\n\n### 2. Vulnerability:\nHeap overflow in parser: bad\n**Severity**: CRITICAL\n**CWE**: CWE-787\n")).map (·.id) =
      [str "VULN-001"]) := by decide

/-- C8 (amended): every returned vulnerability's identifier is
`VULN-%03d` of its 1-based position among the *split segments* (the
`enumerate(vuln_sections[1:], 1)` index), not among the successfully
parsed vulnerabilities — so a skipped segment leaves a gap in the
identifier sequence. -/
theorem C8_vuln_ids_follow_segment_positions (content : Str) :
    (extractVulnerabilities content).map (·.id) =
      (enumFrom 1 (splitVulnSections content).tail).filterMap
        (fun p => if (parseVulnSection p.2 p.1).isSome then some (vulnId p.1) else none) := by
  unfold extractVulnerabilities
  cases hs : splitVulnSections content with
  | nil => rfl
  | cons pre sections =>
    simp only [List.tail_cons]
    generalize enumFrom 1 sections = l
    induction l with
    | nil => rfl
    | cons p rest ih =>
      cases hp : parseVulnSection p.2 p.1 with
      | none => simpa [List.filterMap_cons, hp] using ih
      | some v =>
        simp only [List.filterMap_cons, hp, Option.isSome_some, if_pos, List.map_cons]
        rw [parseVulnSection_id p.2 p.1 v hp, ih]

/-- A vulnerability list containing a CRITICAL finding yields a CRITICAL
deployment blocker. -/
theorem deploymentBlockers_critical {vs : List Vuln}
    (h : ∃ v ∈ vs, v.severity = Severity.critical) :
    (deploymentBlockers vs).any (fun b => b = str "CRITICAL") = true := by
  obtain ⟨v, hv, hsev⟩ := h
  simp only [List.any_eq_true, decide_eq_true_eq]
  refine ⟨v.severity.value, ?_, by rw [hsev]; rfl⟩
  unfold deploymentBlockers
  exact List.mem_map_of_mem _ (List.mem_filter.mpr ⟨hv, by simp [hsev]⟩)

/-- The Enhanced Master Deployer's audit loop fails when some audit parses
to a vulnerability list with a CRITICAL finding and
`block_deployment_on_critical` is set. -/
theorem enhProcessAudits_blocks_critical (cfg : EnhSecurityConfig)
    (hcfg : cfg.blockOnCritical = true) {outcomes : List AuditOutcome}
    {vs : List Vuln} (hmem : AuditOutcome.parsed vs ∈ outcomes)
    (hcrit : ∃ v ∈ vs, v.severity = Severity.critical) :
    enhProcessAudits cfg outcomes = false := by
  induction outcomes with
  | nil => cases hmem
  | cons o rest ih =>
    cases o with
    | missing =>
      have hrest : AuditOutcome.parsed vs ∈ rest := by
        cases List.mem_cons.mp hmem with
        | inl h => cases h
        | inr h => exact h
      simpa [enhProcessAudits] using ih hrest
    | parseError =>
      by_cases hr : cfg.requireSecurityReview = true
      · simp [enhProcessAudits, hr]
      · have hrest : AuditOutcome.parsed vs ∈ rest := by
          cases List.mem_cons.mp hmem with
          | inl h => cases h
          | inr h => exact h
        simp only [enhProcessAudits, if_neg hr]
        exact ih hrest
    | parsed ws =>
      by_cases he : ws = vs
      · subst he
        simp [enhProcessAudits, hcfg, deploymentBlockers_critical hcrit]
      · have hrest : AuditOutcome.parsed vs ∈ rest := by
          cases List.mem_cons.mp hmem with
          | inl h => exact absurd (by injection h with h2; exact h2.symm) he
          | inr h => exact h
        simp only [enhProcessAudits]
        split
        · rfl
        · split
          · rfl
          · exact ih hrest

/-- The Comprehensive Deployer's per-audit CRITICAL counts sum to a
positive number when some audit parses with a CRITICAL finding. -/
theorem compAuditCriticalCounts_pos {outcomes : List AuditOutcome}
    {vs : List Vuln} (hmem : AuditOutcome.parsed vs ∈ outcomes)
    (hcrit : ∃ v ∈ vs, v.severity = Severity.critical) :
    0 < (compAuditCriticalCounts true outcomes).sum := by
  obtain ⟨v, hv, hsev⟩ := hcrit
  have hc : 0 < vs.countP (fun v => decide (v.severity = Severity.critical)) :=
    List.countP_pos_iff.mpr ⟨v, hv, by simp [hsev]⟩
  have hmem2 : vs.countP (fun v => decide (v.severity = Severity.critical)) ∈
      compAuditCriticalCounts true outcomes := by
    unfold compAuditCriticalCounts
    rw [if_neg (by simp)]
    exact List.mem_filterMap.mpr ⟨AuditOutcome.parsed vs, hmem, rfl⟩
  calc 0 < vs.countP (fun v => decide (v.severity = Severity.critical)) := hc
    _ ≤ (compAuditCriticalCounts true outcomes).sum :=
        List.single_le_sum (fun x _ => Nat.zero_le x) _ hmem2

/-- C2: for an audit file whose parsed vulnerability list contains a
CRITICAL vulnerability, both orchestrators under their default
configurations (with the Security Audit Processor available) report
overall run failure, and no compliance check, build validation or
deployment step is executed in that run — the security gate fires first. -/
theorem C2_critical_audit_blocks_before_other_phases
    (outcomes : List AuditOutcome) (vs : List Vuln)
    (hmem : AuditOutcome.parsed vs ∈ outcomes)
    (hcrit : ∃ v ∈ vs, v.severity = Severity.critical)
    (we : EnhWorld) (hwe : we.processorAvailable = true)
    (hweo : we.auditOutcomes = outcomes)
    (wc : CompWorld) (hwc : wc.processorAvailable = true)
    (hwco : wc.auditOutcomes = outcomes) :
    (enhRunFullDeployment enhDefaultSecurity we).1 = false ∧
    Phase.compliance ∉ (enhRunFullDeployment enhDefaultSecurity we).2 ∧
    Phase.build ∉ (enhRunFullDeployment enhDefaultSecurity we).2 ∧
    Phase.deploy ∉ (enhRunFullDeployment enhDefaultSecurity we).2 ∧
    (compRunFullDeployment compDefaultSecurity wc).1 = false ∧
    Phase.compliance ∉ (compRunFullDeployment compDefaultSecurity wc).2 ∧
    Phase.build ∉ (compRunFullDeployment compDefaultSecurity wc).2 ∧
    Phase.deploy ∉ (compRunFullDeployment compDefaultSecurity wc).2 := by
  have hne : outcomes ≠ [] := by
    intro h
    rw [h] at hmem
    cases hmem
  have hgate : enhProcessAudits enhDefaultSecurity outcomes = false :=
    enhProcessAudits_blocks_critical enhDefaultSecurity rfl hmem hcrit
  have henh : enhRunFullDeployment enhDefaultSecurity we = (false, [Phase.securityAudits]) := by
    unfold enhRunFullDeployment
    rw [hweo]
    rw [if_neg (by simpa [List.isEmpty_iff] using hne)]
    simp [hwe, hgate]
  have hsum : 0 < (compAuditCriticalCounts true outcomes).sum :=
    compAuditCriticalCounts_pos hmem hcrit
  have hcomp : (compRunFullDeployment compDefaultSecurity wc).1 = false ∧
      ((compRunFullDeployment compDefaultSecurity wc).2 = [] ∨
        (compRunFullDeployment compDefaultSecurity wc).2 = [Phase.securityAudits]) := by
    unfold compRunFullDeployment
    by_cases hp : wc.projects.isEmpty
    · simp [hp]
    · rw [if_neg hp, hwco, if_neg (by simpa [List.isEmpty_iff] using hne), hwc]
      simp [hsum, compDefaultSecurity]
  refine ⟨by rw [henh], by rw [henh]; simp, by rw [henh]; simp, by rw [henh]; simp,
    hcomp.1, ?_, ?_, ?_⟩ <;>
    cases hcomp.2 with
    | inl h => rw [h]; simp
    | inr h => rw [h]; simp

/-- C2 (witness): a single parsed audit with one CRITICAL vulnerability
blocks both orchestrators at the security gate. -/
theorem C2_witness :
    (AuditOutcome.parsed [⟨str "VULN-001", str "RCE", Severity.critical, str "CWE-787"⟩] ∈
      [AuditOutcome.parsed [⟨str "VULN-001", str "RCE", Severity.critical, str "CWE-787"⟩]]) ∧
    (∃ v ∈ [(⟨str "VULN-001", str "RCE", Severity.critical, str "CWE-787"⟩ : Vuln)],
      v.severity = Severity.critical) ∧
    ((enhRunFullDeployment enhDefaultSecurity
        ⟨true, [AuditOutcome.parsed [⟨str "VULN-001", str "RCE", Severity.critical, str "CWE-787"⟩]],
         true, true, true⟩).1 = false ∧
     Phase.compliance ∉ (enhRunFullDeployment enhDefaultSecurity
        ⟨true, [AuditOutcome.parsed [⟨str "VULN-001", str "RCE", Severity.critical, str "CWE-787"⟩]],
         true, true, true⟩).2 ∧
     Phase.build ∉ (enhRunFullDeployment enhDefaultSecurity
        ⟨true, [AuditOutcome.parsed [⟨str "VULN-001", str "RCE", Severity.critical, str "CWE-787"⟩]],
         true, true, true⟩).2 ∧
     Phase.deploy ∉ (enhRunFullDeployment enhDefaultSecurity
        ⟨true, [AuditOutcome.parsed [⟨str "VULN-001", str "RCE", Severity.critical, str "CWE-787"⟩]],
         true, true, true⟩).2 ∧
     (compRunFullDeployment compDefaultSecurity
        ⟨true, [AuditOutcome.parsed [⟨str "VULN-001", str "RCE", Severity.critical, str "CWE-787"⟩]],
         [⟨str "gemini_cli", 0, []⟩]⟩).1 = false ∧
     Phase.compliance ∉ (compRunFullDeployment compDefaultSecurity
        ⟨true, [AuditOutcome.parsed [⟨str "VULN-001", str "RCE", Severity.critical, str "CWE-787"⟩]],
         [⟨str "gemini_cli", 0, []⟩]⟩).2 ∧
     Phase.build ∉ (compRunFullDeployment compDefaultSecurity
        ⟨true, [AuditOutcome.parsed [⟨str "VULN-001", str "RCE", Severity.critical, str "CWE-787"⟩]],
         [⟨str "gemini_cli", 0, []⟩]⟩).2 ∧
     Phase.deploy ∉ (compRunFullDeployment compDefaultSecurity
        ⟨true, [AuditOutcome.parsed [⟨str "VULN-001", str "RCE", Severity.critical, str "CWE-787"⟩]],
         [⟨str "gemini_cli", 0, []⟩]⟩).2) :=
  ⟨by decide, by decide,
   C2_critical_audit_blocks_before_other_phases
     [AuditOutcome.parsed [⟨str "VULN-001", str "RCE", Severity.critical, str "CWE-787"⟩]]
     [⟨str "VULN-001", str "RCE", Severity.critical, str "CWE-787"⟩]
     (by decide) (by decide) _ rfl rfl _ rfl rfl⟩

/-- The fold of `_calculate_exploit_risk` adds `0.3` per satisfied
pattern. -/
theorem riskFold_eq_countP (cond : Str → Bool) (l : List Str) (acc : ℚ) :
    l.foldl (fun a p => if cond p then a + 3 / 10 else a) acc =
      acc + 3 / 10 * l.countP cond := by
  induction l generalizing acc with
  | nil => simp
  | cons p rest ih =>
    by_cases hc : cond p
    · simp only [List.foldl_cons, List.countP_cons, hc, if_pos]
      rw [ih]
      push_cast
      ring
    · simp [List.foldl_cons, List.countP_cons, hc, ih]

/-- The exploit-risk formula exactly as the claim states it: `0.3` for
each of the six fixed high-risk substrings found in the lower-cased crash
type or error message, plus `0.2` when the stated input size exceeds 1000,
else `0.1` when it exceeds 100, clamped to at most `1.0`. -/
def claimedExploitRisk (r : CrashReport) : ℚ :=
  let ctype := lowerStr (r.crash_type.getD [])
  let msg := lowerStr (r.error_message.getD [])
  let hits := highRiskPatterns.countP (fun p => containsSub ctype p || containsSub msg p)
  let sizeBonus : ℚ :=
    if 1000 < reportInputSize r then 2 / 10
    else if 100 < reportInputSize r then 1 / 10
    else 0
  min (3 / 10 * hits + sizeBonus) 1

/-- C6: the exploit-risk score is additive and clamped — it equals the
claim's formula on every report; a report whose message contains both
`heap-buffer-overflow` and `use-after-free` with input size 2000 scores
`0.8`, and one containing all six high-risk substrings with input size
over 1000 scores `1.0`. -/
theorem C6_exploit_risk_additive_and_clamped :
    (∀ r : CrashReport, calculateExploitRisk r = claimedExploitRisk r) ∧
    calculateExploitRisk
      ⟨none, some (str "heap-buffer-overflow use-after-free"), none, some ⟨some 2000⟩⟩ =
      8 / 10 ∧
    calculateExploitRisk
      ⟨none,
       some (str "heap-buffer-overflow use-after-free double-free buffer overflow memory corruption segmentation fault"),
       none, some ⟨some 2000⟩⟩ = 1 := by
  refine ⟨fun r => ?_, by with_unfolding_all decide, by with_unfolding_all decide⟩
  unfold calculateExploitRisk claimedExploitRisk
  dsimp only
  rw [riskFold_eq_countP]
  by_cases h1 : 1000 < reportInputSize r
  · simp [h1, zero_add, add_comm]
  · by_cases h2 : 100 < reportInputSize r <;> simp [h1, h2, zero_add, add_comm]

/-- C10: on every crash report the exploit-risk score and the priority
score lie in `[0, 1]`, and the priority score dominates the exploit-risk
score (it is the exploit risk plus non-negative memory and input-size
bonuses, clamped to 1). -/
theorem C10_score_bounds_and_dominance (r : CrashReport) :
    0 ≤ calculateExploitRisk r ∧ calculateExploitRisk r ≤ 1 ∧
    0 ≤ calculatePriorityScore r ∧ calculatePriorityScore r ≤ 1 ∧
    calculateExploitRisk r ≤ calculatePriorityScore r := by
  have hrisk0 : 0 ≤ calculateExploitRisk r := by
    unfold calculateExploitRisk
    dsimp only
    rw [riskFold_eq_countP]
    refine le_min ?_ (by norm_num)
    have hcount : (0 : ℚ) ≤ 3 / 10 *
        (highRiskPatterns.countP fun p =>
          containsSub (lowerStr (r.crash_type.getD [])) p ||
            containsSub (lowerStr (r.error_message.getD [])) p) := by positivity
    split
    · linarith
    · split
      · linarith
      · linarith
  have hrisk1 : calculateExploitRisk r ≤ 1 := by
    unfold calculateExploitRisk
    exact min_le_right _ _
  have hmem : (0 : ℚ) ≤
      (if containsSub (lowerStr (r.crash_type.getD [])) (str "memory") then (2 : ℚ) / 10 else 0) := by
    split <;> norm_num
  have hsz : (0 : ℚ) ≤ (if 1000 < reportInputSize r then (1 : ℚ) / 10 else 0) := by
    split <;> norm_num
  refine ⟨hrisk0, hrisk1, ?_, ?_, ?_⟩
  · unfold calculatePriorityScore
    dsimp only
    refine le_min ?_ (by norm_num)
    linarith
  · unfold calculatePriorityScore
    exact min_le_right _ _
  · unfold calculatePriorityScore
    dsimp only
    exact le_min (by linarith) hrisk1

/-- C4: when the running daily cost has reached the daily budget,
`analyze_crash_intelligently` still returns all local-heuristic fields
(crash signature, exploit risk, category, deduplication key, priority,
cluster analysis, vulnerability matches), the phase-2 embedding keys are
absent, the recorded `embedding_used` flag is `false`, and the recorded
`estimated_cost` for the call is `0.0` — regardless of how many high-value
criteria the crash meets. -/
theorem C4_budget_exhausted_keeps_local_analysis
    (cfg : EngineConfig) (env : PyEnv) (st : EngineState) (r : CrashReport)
    (h : st.dailyBudget ≤ st.currentDailyCost) :
    ∃ a st2, analyzeCrashIntelligently cfg env st r = (.full a, st2) ∧
      a.crash_signature = generateFastSignature env.pyHash r ∧
      a.exploit_risk_score = calculateExploitRisk r ∧
      a.vulnerability_category = categorizeVulnerability r ∧
      a.deduplication_key = generateDedupKey r ∧
      a.priority_score = calculatePriorityScore r ∧
      a.cluster_analysis =
        (fastClusterAnalysis st.crashClusters st.clock (generateDedupKey r)).1 ∧
      a.vulnerability_matches = matchVulnerabilityPatterns r ∧
      a.embedding = none ∧
      a.intelligence_stats.embedding_used = false ∧
      a.intelligence_stats.estimated_cost = 0 := by
  refine ⟨(analyzeBody cfg env st r).1, (analyzeBody cfg env st r).2, rfl,
    ?_, ?_, ?_, ?_, ?_, ?_, ?_, ?_, ?_, ?_⟩ <;>
    simp [analyzeBody, shouldUseEmbeddings, h]

/-- C4 (witness): a novel, high-risk crash analyzed with embeddings
enabled but the daily budget exhausted. -/
theorem C4_budget_exhausted_witness :
    ((⟨2, 2, [], [], 0, 0, 0, 0⟩ : EngineState).dailyBudget ≤
      (⟨2, 2, [], [], 0, 0, 0, 0⟩ : EngineState).currentDailyCost) ∧
    (∃ a st2,
      analyzeCrashIntelligently ⟨true⟩
        ⟨fun _ => 7, true, some (str "key"), fun _ => .ok [1], fun _ => 0⟩
        ⟨2, 2, [], [], 0, 0, 0, 0⟩
        ⟨some (str "heap-buffer-overflow"),
         some (str "AddressSanitizer: heap-buffer-overflow on address 0x60200000eff0"),
         some (str "#0 0x4f5e35 in main /src/test.c:42:5"),
         some ⟨some 1000⟩⟩ = (.full a, st2) ∧
      a.crash_signature = generateFastSignature (fun _ => 7)
        ⟨some (str "heap-buffer-overflow"),
         some (str "AddressSanitizer: heap-buffer-overflow on address 0x60200000eff0"),
         some (str "#0 0x4f5e35 in main /src/test.c:42:5"),
         some ⟨some 1000⟩⟩ ∧
      a.exploit_risk_score = calculateExploitRisk
        ⟨some (str "heap-buffer-overflow"),
         some (str "AddressSanitizer: heap-buffer-overflow on address 0x60200000eff0"),
         some (str "#0 0x4f5e35 in main /src/test.c:42:5"),
         some ⟨some 1000⟩⟩ ∧
      a.vulnerability_category = categorizeVulnerability
        ⟨some (str "heap-buffer-overflow"),
         some (str "AddressSanitizer: heap-buffer-overflow on address 0x60200000eff0"),
         some (str "#0 0x4f5e35 in main /src/test.c:42:5"),
         some ⟨some 1000⟩⟩ ∧
      a.deduplication_key = generateDedupKey
        ⟨some (str "heap-buffer-overflow"),
         some (str "AddressSanitizer: heap-buffer-overflow on address 0x60200000eff0"),
         some (str "#0 0x4f5e35 in main /src/test.c:42:5"),
         some ⟨some 1000⟩⟩ ∧
      a.priority_score = calculatePriorityScore
        ⟨some (str "heap-buffer-overflow"),
         some (str "AddressSanitizer: heap-buffer-overflow on address 0x60200000eff0"),
         some (str "#0 0x4f5e35 in main /src/test.c:42:5"),
         some ⟨some 1000⟩⟩ ∧
      a.cluster_analysis =
        (fastClusterAnalysis [] 0 (generateDedupKey
          ⟨some (str "heap-buffer-overflow"),
           some (str "AddressSanitizer: heap-buffer-overflow on address 0x60200000eff0"),
           some (str "#0 0x4f5e35 in main /src/test.c:42:5"),
           some ⟨some 1000⟩⟩)).1 ∧
      a.vulnerability_matches = matchVulnerabilityPatterns
        ⟨some (str "heap-buffer-overflow"),
         some (str "AddressSanitizer: heap-buffer-overflow on address 0x60200000eff0"),
         some (str "#0 0x4f5e35 in main /src/test.c:42:5"),
         some ⟨some 1000⟩⟩ ∧
      a.embedding = none ∧
      a.intelligence_stats.embedding_used = false ∧
      a.intelligence_stats.estimated_cost = 0) :=
  ⟨le_refl 2,
   C4_budget_exhausted_keeps_local_analysis ⟨true⟩
     ⟨fun _ => 7, true, some (str "key"), fun _ => .ok [1], fun _ => 0⟩
     ⟨2, 2, [], [], 0, 0, 0, 0⟩
     ⟨some (str "heap-buffer-overflow"),
      some (str "AddressSanitizer: heap-buffer-overflow on address 0x60200000eff0"),
      some (str "#0 0x4f5e35 in main /src/test.c:42:5"),
      some ⟨some 1000⟩⟩ (le_refl 2)⟩

/-- `byteHex` always renders two characters, so a digest of `n` bytes
renders `2 * n` hex characters. -/
theorem length_flatMap_byteHex (l : List Nat) : (l.flatMap byteHex).length = 2 * l.length := by
  induction l with
  | nil => rfl
  | cons b rest ih =>
    simp only [List.flatMap_cons, List.length_append, ih, byteHex]
    simp
    omega

/-- An MD5 digest has 16 bytes. -/
theorem md5Bytes_length (m : List Nat) : (md5Bytes m).length = 16 := by
  simp [md5Bytes, le4]

/-- An MD5 hexdigest has 32 characters. -/
theorem md5hex_length (s : Str) : (md5hex s).length = 32 := by
  unfold md5hex
  rw [length_flatMap_byteHex, md5Bytes_length]

/-- C9: `analyze_crash_intelligently` is total on its public interface —
for every crash-report record over the modelled domain (string fields
present or absent, optional integer input size) and every environment it
returns a full analysis (the `except` branch is never taken, no exception
propagates), the returned record carries a 12-character crash signature,
and the fallback record that the `except` handler would return carries
`fallback_mode = true` and a 12-character crash signature. -/
theorem C9_analyze_total_and_fallback_shape
    (cfg : EngineConfig) (env : PyEnv) (st : EngineState) (r : CrashReport) :
    (∃ a st2, analyzeCrashIntelligently cfg env st r = (.full a, st2) ∧
      a.crash_signature.length = 12) ∧
    (fallbackAnalysis env r).fallback_mode = true ∧
    ((fallbackAnalysis env r).crash_signature).length = 12 := by
  have hsig : (generateFastSignature env.pyHash r).length = 12 := by
    unfold generateFastSignature
    rw [List.length_take, md5hex_length]
    rfl
  refine ⟨⟨(analyzeBody cfg env st r).1, (analyzeBody cfg env st r).2, rfl, ?_⟩, rfl, hsig⟩
  have hfield : (analyzeBody cfg env st r).1.crash_signature =
      generateFastSignature env.pyHash r := by
    simp [analyzeBody]
  rw [hfield, hsig]

/-! ### Rewriting interface for the normalization scanners

`sub1F`/`sub2F` recurse on fuel; the lemmas below show the fuel is
irrelevant once it dominates the input length, giving the natural one-step
unfoldings of `sub1` and `sub2`. -/

theorem sub1F_congr (f1 : Nat) :
    ∀ (f2 : Nat) (l : List Char), l.length ≤ f1 → l.length ≤ f2 →
      sub1F f1 l = sub1F f2 l := by
  induction f1 with
  | zero =>
    intro f2 l h1 _
    have hl : l = [] := List.eq_nil_of_length_eq_zero (Nat.le_zero.mp h1)
    subst hl
    cases f2 <;> rfl
  | succ f ih =>
    intro f2 l h1 h2
    cases l with
    | nil => cases f2 <;> rfl
    | cons c rest =>
      cases f2 with
      | zero => simp at h2
      | succ f2 =>
        show sub1F (f + 1) (c :: rest) = sub1F (f2 + 1) (c :: rest)
        have hrest : rest.length ≤ f := by
          have := h1
          simp only [List.length_cons] at this
          omega
        have hrest2 : rest.length ≤ f2 := by
          have := h2
          simp only [List.length_cons] at this
          omega
        have hdrop : (rest.tail.dropWhile isHexLower).length ≤ rest.length :=
          le_trans (List.dropWhile_suffix isHexLower).length_le
            (by simp [List.length_tail])
        unfold sub1F
        split
        · exact congrArg _ (ih _ _ (le_trans hdrop hrest) (le_trans hdrop hrest2))
        · exact congrArg _ (ih _ _ hrest hrest2)

theorem sub1_cons (c : Char) (rest : List Char) :
    sub1 (c :: rest) =
      if c = '0' ∧ rest.head? = some 'x' ∧ ¬(rest.tail.takeWhile isHexLower).isEmpty then
        str "ADDR" ++ sub1 (rest.tail.dropWhile isHexLower)
      else c :: sub1 rest := by
  show sub1F (c :: rest).length (c :: rest) = _
  have hdrop : (rest.tail.dropWhile isHexLower).length ≤ rest.length :=
    le_trans (List.dropWhile_suffix isHexLower).length_le (by simp [List.length_tail])
  simp only [List.length_cons]
  unfold sub1F
  split
  · exact congrArg _ (sub1F_congr _ _ _ hdrop le_rfl)
  · rfl

theorem sub2F_congr (f1 : Nat) :
    ∀ (f2 : Nat) (l : List Char), l.length ≤ f1 → l.length ≤ f2 →
      sub2F f1 l = sub2F f2 l := by
  induction f1 with
  | zero =>
    intro f2 l h1 _
    have hl : l = [] := List.eq_nil_of_length_eq_zero (Nat.le_zero.mp h1)
    subst hl
    cases f2 <;> rfl
  | succ f ih =>
    intro f2 l h1 h2
    cases l with
    | nil => cases f2 <;> rfl
    | cons c rest =>
      cases f2 with
      | zero => simp at h2
      | succ f2 =>
        show sub2F (f + 1) (c :: rest) = sub2F (f2 + 1) (c :: rest)
        have hrest : rest.length ≤ f := by
          have := h1
          simp only [List.length_cons] at this
          omega
        have hrest2 : rest.length ≤ f2 := by
          have := h2
          simp only [List.length_cons] at this
          omega
        have hdrop : (rest.dropWhile Char.isDigit).length ≤ rest.length :=
          (List.dropWhile_suffix Char.isDigit).length_le
        unfold sub2F
        split
        · exact congrArg _ (ih _ _ (le_trans hdrop hrest) (le_trans hdrop hrest2))
        · exact congrArg _ (ih _ _ hrest hrest2)

theorem sub2_cons (c : Char) (rest : List Char) :
    sub2 (c :: rest) =
      if c = ':' ∧ ¬(rest.takeWhile Char.isDigit).isEmpty then
        str ":LINE" ++ sub2 (rest.dropWhile Char.isDigit)
      else c :: sub2 rest := by
  show sub2F (c :: rest).length (c :: rest) = _
  have hdrop : (rest.dropWhile Char.isDigit).length ≤ rest.length :=
    (List.dropWhile_suffix Char.isDigit).length_le
  simp only [List.length_cons]
  unfold sub2F
  split
  · exact congrArg _ (sub2F_congr _ _ _ hdrop le_rfl)
  · rfl

/-- `dropWhile` splits over an append whose right part starts with a
non-satisfying element. -/
theorem dropWhile_append_neg_head (p : Char → Bool) (a b : List Char)
    (hb : ∀ c, b.head? = some c → p c = false) :
    (a ++ b).dropWhile p = a.dropWhile p ++ b := by
  rw [List.dropWhile_append]
  split
  · rename_i he
    rw [List.isEmpty_iff] at he
    rw [he, List.nil_append]
    cases b with
    | nil => rfl
    | cons c t => rw [List.dropWhile_cons_of_neg (by simp [hb c rfl])]
  · rfl

/-- `takeWhile` of an append whose right part starts with a
non-satisfying element is empty iff the left part contributes nothing. -/
theorem takeWhile_append_isEmpty (p : Char → Bool) (a b : List Char)
    (hb : ∀ c, b.head? = some c → p c = false) :
    ((a ++ b).takeWhile p).isEmpty = (a.takeWhile p).isEmpty := by
  cases a with
  | nil =>
    simp only [List.nil_append, List.takeWhile_nil]
    cases b with
    | nil => rfl
    | cons c t => rw [List.takeWhile_cons_of_neg (by simp [hb c rfl])]
  | cons c t =>
    simp only [List.cons_append, List.takeWhile_cons]
    split <;> rfl

/-- Does the list end in a suffix of the shape `0x` followed by zero or
more `[0-9a-f]` characters?  (The configurations in which an address
match of `_normalize_error_message`'s first `re.sub` pass could straddle a
split point.) -/
def endsAddrSfx : List Char → Bool
  | [] => false
  | c :: rest =>
    (decide (c = '0') && decide (rest.head? = some 'x') && rest.tail.all isHexLower)
      || endsAddrSfx rest

theorem endsAddrSfx_suffix {s xs : List Char} (h : s <:+ xs)
    (hx : endsAddrSfx xs = false) : endsAddrSfx s = false := by
  induction xs with
  | nil =>
    rw [List.suffix_nil.mp h]
    rfl
  | cons c rest ih =>
    rcases List.suffix_cons_iff.mp h with he | hs
    · rw [he]; exact hx
    · exact ih hs (by
        unfold endsAddrSfx at hx
        exact (Bool.or_eq_false_iff.mp hx).2)

/-- All-digit lists cannot end in an address-shaped suffix
(they contain no `x`). -/
theorem endsAddrSfx_digits (l : List Char) (h : ∀ c ∈ l, Char.isDigit c = true) :
    endsAddrSfx l = false := by
  induction l with
  | nil => rfl
  | cons c rest ih =>
    unfold endsAddrSfx
    rw [Bool.or_eq_false_iff]
    refine ⟨?_, ih (fun c hc => h c (List.mem_cons_of_mem _ hc))⟩
    cases rest with
    | nil => simp
    | cons r t =>
      have hr : Char.isDigit r = true := h r (by simp)
      have : ¬(r = 'x') := by
        intro he
        rw [he] at hr
        exact absurd hr (by decide)
      simp [this]

/-- The first `re.sub` pass leaves an all-digit list unchanged
(a `0x…` match needs an `x`). -/
theorem sub1_digits (l : List Char) (h : ∀ c ∈ l, Char.isDigit c = true) :
    sub1 l = l := by
  induction l with
  | nil => rfl
  | cons c rest ih =>
    rw [sub1_cons, if_neg, ih (fun c hc => h c (List.mem_cons_of_mem _ hc))]
    rintro ⟨-, hx, -⟩
    cases rest with
    | nil => simp at hx
    | cons r t =>
      have hr : Char.isDigit r = true := h r (by simp)
      rw [List.head?_cons, Option.some.injEq] at hx
      rw [hx] at hr
      exact absurd hr (by decide)

/-- Splitting the first `re.sub` pass at a point whose right side starts
with a character that is neither hex nor `x`: no address match straddles
the boundary, so the pass distributes over the append. -/
theorem sub1_append_right : ∀ (n : Nat) (xs : List Char), xs.length ≤ n →
    ∀ ys : List Char, (∀ c, ys.head? = some c → isHexLower c = false ∧ c ≠ 'x') →
      sub1 (xs ++ ys) = sub1 xs ++ sub1 ys := by
  intro n
  induction n with
  | zero =>
    intro xs hx ys _
    rw [List.eq_nil_of_length_eq_zero (Nat.le_zero.mp hx)]
    rfl
  | succ n ih =>
    intro xs hx ys hys
    cases xs with
    | nil => rfl
    | cons c rest =>
      have hrest : rest.length ≤ n := by
        simp only [List.length_cons] at hx
        omega
      have hysEmpty : (ys.takeWhile isHexLower).isEmpty = true := by
        cases ys with
        | nil => rfl
        | cons y t => rw [List.takeWhile_cons_of_neg (by simp [(hys y rfl).1])]; rfl
      cases rest with
      | nil =>
        rw [List.cons_append, List.nil_append, sub1_cons, if_neg, sub1_cons c [],
          if_neg (by simp)]
        · rfl
        · rintro ⟨-, hx2, -⟩
          cases ys with
          | nil => simp at hx2
          | cons y t =>
            rw [List.head?_cons, Option.some.injEq] at hx2
            exact (hys y rfl).2 hx2
      | cons r rest2 =>
        have hcond : (c = '0' ∧ (r :: (rest2 ++ ys)).head? = some 'x' ∧
              ¬((r :: (rest2 ++ ys)).tail.takeWhile isHexLower).isEmpty) ↔
            (c = '0' ∧ (r :: rest2).head? = some 'x' ∧
              ¬((r :: rest2).tail.takeWhile isHexLower).isEmpty) := by
          simp only [List.head?_cons, List.tail_cons]
          constructor
          · rintro ⟨h1, h2, h3⟩
            refine ⟨h1, h2, ?_⟩
            rwa [takeWhile_append_isEmpty isHexLower rest2 ys
              (fun c hc => (hys c hc).1)] at h3
          · rintro ⟨h1, h2, h3⟩
            refine ⟨h1, h2, ?_⟩
            rwa [takeWhile_append_isEmpty isHexLower rest2 ys
              (fun c hc => (hys c hc).1)]
        by_cases hc : c = '0' ∧ (r :: rest2).head? = some 'x' ∧
            ¬((r :: rest2).tail.takeWhile isHexLower).isEmpty
        · rw [List.cons_append, List.cons_append, sub1_cons, if_pos (by
              simpa only [List.cons_append] using hcond.mpr hc),
            sub1_cons c (r :: rest2), if_pos hc]
          simp only [List.tail_cons]
          rw [dropWhile_append_neg_head isHexLower rest2 ys (fun c hc => (hys c hc).1)]
          rw [ih (rest2.dropWhile isHexLower)
            (le_trans (List.dropWhile_suffix isHexLower).length_le (by
              simp only [List.length_cons] at hx
              omega)) ys hys]
          simp
        · rw [List.cons_append, List.cons_append, sub1_cons, if_neg (by
              intro hcc
              exact hc (hcond.mp (by simpa only [List.cons_append] using hcc))),
            sub1_cons c (r :: rest2), if_neg hc]
          rw [← List.cons_append, ih (r :: rest2) hrest ys hys]
          rfl

/-- Splitting the first `re.sub` pass at a point whose left side does not
end in an address-shaped suffix and whose right side does not start with
`x`: again no match straddles the boundary. -/
theorem sub1_append_left : ∀ (n : Nat) (xs : List Char), xs.length ≤ n →
    endsAddrSfx xs = false →
    ∀ ys : List Char, (∀ c, ys.head? = some c → c ≠ 'x') →
      sub1 (xs ++ ys) = sub1 xs ++ sub1 ys := by
  intro n
  induction n with
  | zero =>
    intro xs hx _ ys _
    rw [List.eq_nil_of_length_eq_zero (Nat.le_zero.mp hx)]
    rfl
  | succ n ih =>
    intro xs hx hsfx ys hys
    cases xs with
    | nil => rfl
    | cons c rest =>
      have hrest : rest.length ≤ n := by
        simp only [List.length_cons] at hx
        omega
      have hsfxRest : endsAddrSfx rest = false := by
        unfold endsAddrSfx at hsfx
        exact (Bool.or_eq_false_iff.mp hsfx).2
      cases rest with
      | nil =>
        rw [List.cons_append, List.nil_append, sub1_cons, if_neg, sub1_cons c [],
          if_neg (by simp)]
        · rfl
        · rintro ⟨-, hx2, -⟩
          cases ys with
          | nil => simp at hx2
          | cons y t =>
            rw [List.head?_cons, Option.some.injEq] at hx2
            exact hys y rfl hx2
      | cons r rest2 =>
        by_cases hzx : c = '0' ∧ r = 'x'
        · -- with the leading `0x`, the suffix hypothesis forbids an
          -- all-hex `rest2`, so the address match stays inside `xs`
          have hnotall : rest2.all isHexLower = false := by
            rcases Bool.or_eq_false_iff.mp hsfx with ⟨h1, -⟩
            rcases Bool.and_eq_false_iff.mp h1 with h2 | h3
            · rcases Bool.and_eq_false_iff.mp h2 with h4 | h5
              · exact absurd hzx.1 (by simpa using h4)
              · exact absurd (by simp [hzx.2] : (r :: rest2 : List Char).head? = some 'x')
                  (by simpa using h5)
            · simpa using h3
          have hne : rest2.dropWhile isHexLower ≠ [] := by
            intro hdrop
            have : rest2.all isHexLower = true := by
              have := List.takeWhile_append_dropWhile isHexLower rest2
              rw [hdrop, List.append_nil] at this
              rw [List.all_eq_true]
              intro a ha
              exact List.mem_takeWhile_imp (this ▸ ha)
            rw [this] at hnotall
            cases hnotall
          have hcondEq : ((r :: (rest2 ++ ys)).tail.takeWhile isHexLower).isEmpty =
              ((r :: rest2).tail.takeWhile isHexLower).isEmpty := by
            simp only [List.tail_cons]
            cases rest2 with
            | nil => exact absurd rfl hne
            | cons r2 rest3 =>
              simp only [List.cons_append, List.takeWhile_cons]
              split <;> rfl
          by_cases hc : c = '0' ∧ (r :: rest2).head? = some 'x' ∧
              ¬((r :: rest2).tail.takeWhile isHexLower).isEmpty
          · rw [List.cons_append, List.cons_append, sub1_cons, if_pos (by
                refine ⟨hc.1, by simpa using hc.2.1, ?_⟩
                simpa only [List.cons_append, hcondEq] using hc.2.2),
              sub1_cons c (r :: rest2), if_pos hc]
            simp only [List.tail_cons]
            rw [List.dropWhile_append, if_neg (by simpa [List.isEmpty_iff] using hne)]
            rw [ih (rest2.dropWhile isHexLower)
              (le_trans (List.dropWhile_suffix isHexLower).length_le (by
                simp only [List.length_cons] at hx
                omega))
              (endsAddrSfx_suffix
                ((List.dropWhile_suffix isHexLower).trans
                  ((List.suffix_cons r rest2).trans (List.suffix_cons c (r :: rest2))))
                hsfx)
              ys hys]
            simp
          · rw [List.cons_append, List.cons_append, sub1_cons, if_neg (by
                rintro ⟨h1, h2, h3⟩
                exact hc ⟨h1, by simpa using h2, by
                  simpa only [List.cons_append, hcondEq] using h3⟩),
              sub1_cons c (r :: rest2), if_neg hc]
            rw [← List.cons_append, ih (r :: rest2) hrest hsfxRest ys hys]
            rfl
        · -- no `0x` at the split head: both conditions fail for the same
          -- structural reason
          have hfail : ∀ t : List Char, ¬(c = '0' ∧ (r :: t).head? = some 'x' ∧
              ¬((r :: t).tail.takeWhile isHexLower).isEmpty) := by
            rintro t ⟨h1, h2, -⟩
            rw [List.head?_cons, Option.some.injEq] at h2
            exact hzx ⟨h1, h2⟩
          rw [List.cons_append, List.cons_append, sub1_cons, if_neg (by
              intro hcc
              exact hfail (rest2 ++ ys) (by simpa only [List.cons_append] using hcc)),
            sub1_cons c (r :: rest2), if_neg (hfail rest2)]
          rw [← List.cons_append, ih (r :: rest2) hrest hsfxRest ys hys]
          rfl

/-- Splitting the second `re.sub` pass (`:\d+ → :LINE`) at a point whose
right side does not start with a digit. -/
theorem sub2_append_right : ∀ (n : Nat) (xs : List Char), xs.length ≤ n →
    ∀ ys : List Char, (∀ c, ys.head? = some c → Char.isDigit c = false) →
      sub2 (xs ++ ys) = sub2 xs ++ sub2 ys := by
  intro n
  induction n with
  | zero =>
    intro xs hx ys _
    rw [List.eq_nil_of_length_eq_zero (Nat.le_zero.mp hx)]
    rfl
  | succ n ih =>
    intro xs hx ys hys
    cases xs with
    | nil => rfl
    | cons c rest =>
      have hrest : rest.length ≤ n := by
        simp only [List.length_cons] at hx
        omega
      have hcondEq : ((rest ++ ys).takeWhile Char.isDigit).isEmpty =
          (rest.takeWhile Char.isDigit).isEmpty :=
        takeWhile_append_isEmpty Char.isDigit rest ys hys
      by_cases hc : c = ':' ∧ ¬(rest.takeWhile Char.isDigit).isEmpty
      · rw [List.cons_append, sub2_cons, if_pos ⟨hc.1, by rw [hcondEq]; exact hc.2⟩,
          sub2_cons, if_pos hc]
        rw [dropWhile_append_neg_head Char.isDigit rest ys hys]
        rw [ih (rest.dropWhile Char.isDigit)
          (le_trans (List.dropWhile_suffix Char.isDigit).length_le hrest) ys hys]
        simp
      · rw [List.cons_append, sub2_cons, if_neg (by
            rintro ⟨h1, h2⟩
            exact hc ⟨h1, by rwa [hcondEq] at h2⟩),
          sub2_cons, if_neg hc]
        rw [ih rest hrest ys hys]
        rfl

/-- An error message embedding a hexadecimal address (`0x` + hex digits)
and a `:`-prefixed line number: `pre 0x<hx> mid :<d> post`. -/
def addrLineMsg (pre hx mid d post : List Char) : List Char :=
  pre ++ '0' :: 'x' :: (hx ++ (mid ++ ':' :: (d ++ post)))

/-- Effect of the first `re.sub` pass on an address/line message: the
`0x<hx>` run collapses to `ADDR` together with any hex prefix of `mid`,
independently of the hex digits themselves. -/
theorem sub1_addrLineMsg (pre hx mid d post : List Char)
    (hpre : endsAddrSfx pre = false)
    (hh : hx ≠ [] ∧ hx.all isHexLower = true)
    (hd : d ≠ [] ∧ d.all Char.isDigit = true)
    (hpost : ∀ c, post.head? = some c → isHexLower c = false ∧ c ≠ 'x') :
    sub1 (addrLineMsg pre hx mid d post) =
      (sub1 pre ++ str "ADDR" ++ sub1 (mid.dropWhile isHexLower)) ++
        ':' :: (d ++ sub1 post) := by
  obtain ⟨hxne, hxhex⟩ := hh
  obtain ⟨hdne, hddig⟩ := hd
  have hxall : ∀ c ∈ hx, isHexLower c = true := List.all_eq_true.mp hxhex
  have hdall : ∀ c ∈ d, Char.isDigit c = true := List.all_eq_true.mp hddig
  unfold addrLineMsg
  rw [sub1_append_left pre.length pre le_rfl hpre _ (by
    intro c hc
    rw [List.head?_cons, Option.some.injEq] at hc
    rw [← hc]
    decide)]
  have hcond : ('0' : Char) = '0' ∧
      ('x' :: (hx ++ (mid ++ ':' :: (d ++ post)))).head? = some 'x' ∧
      ¬((('x' :: (hx ++ (mid ++ ':' :: (d ++ post)))).tail.takeWhile isHexLower).isEmpty) := by
    refine ⟨rfl, rfl, ?_⟩
    simp only [List.tail_cons]
    cases hx with
    | nil => exact absurd rfl hxne
    | cons h0 t =>
      rw [List.cons_append, List.takeWhile_cons_of_pos (hxall h0 (by simp))]
      simp
  rw [sub1_cons, if_pos hcond]
  simp only [List.tail_cons]
  rw [List.dropWhile_append_of_pos hxall]
  rw [dropWhile_append_neg_head isHexLower mid (':' :: (d ++ post)) (by
    intro c hc
    rw [List.head?_cons, Option.some.injEq] at hc
    rw [← hc]
    decide)]
  rw [sub1_append_right (mid.dropWhile isHexLower).length _ le_rfl _ (by
    intro c hc
    rw [List.head?_cons, Option.some.injEq] at hc
    rw [← hc]
    exact ⟨by decide, by decide⟩)]
  rw [sub1_cons, if_neg (by rintro ⟨hc, -, -⟩; exact absurd hc (by decide))]
  rw [sub1_append_left d.length d le_rfl (endsAddrSfx_digits d hdall) post
    (fun c hc => (hpost c hc).2)]
  rw [sub1_digits d hdall]
  simp [str]

/-- `_normalize_error_message` maps two messages that differ only in the
embedded hexadecimal address and `:line` number to the same string. -/
theorem normalize_addrLineMsg (pre mid post h1 h2 d1 d2 : List Char)
    (hpre : endsAddrSfx pre = false)
    (hh1 : h1 ≠ [] ∧ h1.all isHexLower = true)
    (hh2 : h2 ≠ [] ∧ h2.all isHexLower = true)
    (hd1 : d1 ≠ [] ∧ d1.all Char.isDigit = true)
    (hd2 : d2 ≠ [] ∧ d2.all Char.isDigit = true)
    (hpost : ∀ c, post.head? = some c → isHexLower c = false ∧ c ≠ 'x') :
    normalizeErrorMessage (addrLineMsg pre h1 mid d1 post) =
      normalizeErrorMessage (addrLineMsg pre h2 mid d2 post) := by
  have hne : ∀ hx d : List Char, (addrLineMsg pre hx mid d post).isEmpty = false := by
    intro hx d
    simp [addrLineMsg]
  unfold normalizeErrorMessage
  rw [if_neg (by simp [hne h1 d1]), if_neg (by simp [hne h2 d2])]
  congr 2
  rw [sub1_addrLineMsg pre h1 mid d1 post hpre hh1 hd1 hpost,
    sub1_addrLineMsg pre h2 mid d2 post hpre hh2 hd2 hpost]
  have hmid : ∀ dd : List Char,
      sub2 ((sub1 pre ++ str "ADDR" ++ sub1 (mid.dropWhile isHexLower)) ++
        ':' :: (dd ++ sub1 post)) =
      sub2 (sub1 pre ++ str "ADDR" ++ sub1 (mid.dropWhile isHexLower)) ++
        sub2 (':' :: (dd ++ sub1 post)) := by
    intro dd
    exact sub2_append_right _ _ le_rfl _ (by
      intro c hc
      rw [List.head?_cons, Option.some.injEq] at hc
      rw [← hc]
      decide)
  rw [hmid d1, hmid d2]
  congr 1
  have hstep : ∀ dd : List Char, dd ≠ [] → dd.all Char.isDigit = true →
      sub2 (':' :: (dd ++ sub1 post)) =
        str ":LINE" ++ sub2 ((sub1 post).dropWhile Char.isDigit) := by
    intro dd hdne hddig
    rw [sub2_cons, if_pos ?hc]
    case hc =>
      refine ⟨rfl, ?_⟩
      cases dd with
      | nil => exact absurd rfl hdne
      | cons d0 t =>
        rw [List.cons_append,
          List.takeWhile_cons_of_pos (List.all_eq_true.mp hddig d0 (by simp))]
        simp
    rw [List.dropWhile_append_of_pos (List.all_eq_true.mp hddig)]
  rw [hstep d1 hd1.1 hd1.2, hstep d2 hd2.1 hd2.2]

/-- The deduplication key depends only on the crash type, the extracted
top function and the normalized error message. -/
theorem generateDedupKey_congr (r1 r2 : CrashReport)
    (hct : r1.crash_type = r2.crash_type)
    (htop : extractTopFunction (r1.stack_trace.getD []) =
      extractTopFunction (r2.stack_trace.getD []))
    (hnorm : normalizeErrorMessage (r1.error_message.getD []) =
      normalizeErrorMessage (r2.error_message.getD [])) :
    generateDedupKey r1 = generateDedupKey r2 := by
  unfold generateDedupKey
  rw [hct, htop, hnorm]

/-- A deduplication key has 16 hex characters. -/
theorem generateDedupKey_length (r : CrashReport) :
    (generateDedupKey r).length = 16 := by
  unfold generateDedupKey
  rw [List.length_take, md5hex_length]
  rfl

/-- Phase 2 never touches the cluster map. -/
theorem selective_preserves_clusters (env : PyEnv) (st : EngineState) (r : CrashReport) :
    (selectiveEmbeddingAnalysis env st r).2.crashClusters = st.crashClusters := by
  unfold selectiveEmbeddingAnalysis generateNewEmbedding
  dsimp only
  split
  · rfl
  · split
    · rfl
    · split
      · rfl
      · split
        · rfl
        · rfl

/-- The engine state after one analysis records exactly the cluster-map
update of `_fast_cluster_analysis` on the report's deduplication key. -/
theorem analyzeBody_clusters (cfg : EngineConfig) (env : PyEnv) (st : EngineState)
    (r : CrashReport) :
    (analyzeBody cfg env st r).2.crashClusters =
      (fastClusterAnalysis st.crashClusters st.clock (generateDedupKey r)).2 := by
  unfold analyzeBody
  dsimp only
  split
  · rw [selective_preserves_clusters]
  · rfl

/-- The reported cluster analysis is `_fast_cluster_analysis` of the
pre-call cluster map at the report's deduplication key. -/
theorem analyzeBody_cluster_field (cfg : EngineConfig) (env : PyEnv) (st : EngineState)
    (r : CrashReport) :
    (analyzeBody cfg env st r).1.cluster_analysis =
      (fastClusterAnalysis st.crashClusters st.clock (generateDedupKey r)).1 := by
  simp [analyzeBody]

/-- The reported deduplication key field. -/
theorem analyzeBody_dedup_field (cfg : EngineConfig) (env : PyEnv) (st : EngineState)
    (r : CrashReport) :
    (analyzeBody cfg env st r).1.deduplication_key = generateDedupKey r := by
  simp [analyzeBody]

/-- `_fast_cluster_analysis` on an empty cluster map: novel, size 1. -/
theorem fastClusterAnalysis_nil (now : Nat) (key : Str) :
    fastClusterAnalysis [] now key = (⟨false, true, 1, key⟩, [(key, [now])]) := rfl

/-- `_fast_cluster_analysis` on a singleton map at its own key:
duplicate, not novel, and the reported size is the number of *prior*
observations (`len(self.crash_clusters[dedup_key])` before the append). -/
theorem fastClusterAnalysis_found (key : Str) (now : Nat) (ts : List Nat) :
    fastClusterAnalysis [(key, ts)] now key =
      (⟨true, false, ts.length, key⟩, [(key, ts ++ [now])]) := by
  unfold fastClusterAnalysis
  simp

/-- C5 (amended): for every pair of crash reports with identical crash
type and identical top stack-trace function whose error messages differ
only in an embedded hexadecimal address and a `:line` number (in a
well-formed position: the prefix does not end in an address fragment and
the suffix does not continue the address or number), the two reports get
the same 16-hex-character deduplication key, and when the second is
analyzed after the first by a fresh engine instance its cluster analysis
marks it as a duplicate (`is_duplicate = true`, `is_novel = false`) with
reported cluster size 1 — the length of the key's *prior* observation
list, not the post-insertion size 2 stated in the claim. -/
theorem C5_same_dedup_key_duplicate_cluster
    (cfg : EngineConfig) (env : PyEnv) (st0 : EngineState)
    (hfresh : st0.crashClusters = [])
    (ct s1 s2 : Option Str)
    (htop : extractTopFunction (s1.getD []) = extractTopFunction (s2.getD []))
    (sz1 sz2 : Option InputInfo)
    (pre mid post h1 h2 d1 d2 : List Char)
    (hpre : endsAddrSfx pre = false)
    (hh1 : h1 ≠ [] ∧ h1.all isHexLower = true)
    (hh2 : h2 ≠ [] ∧ h2.all isHexLower = true)
    (hd1 : d1 ≠ [] ∧ d1.all Char.isDigit = true)
    (hd2 : d2 ≠ [] ∧ d2.all Char.isDigit = true)
    (hpost : ∀ c, post.head? = some c → isHexLower c = false ∧ c ≠ 'x') :
    generateDedupKey ⟨ct, some (addrLineMsg pre h1 mid d1 post), s1, sz1⟩ =
      generateDedupKey ⟨ct, some (addrLineMsg pre h2 mid d2 post), s2, sz2⟩ ∧
    (generateDedupKey ⟨ct, some (addrLineMsg pre h1 mid d1 post), s1, sz1⟩).length = 16 ∧
    ∃ a1 st1 a2 st2,
      analyzeCrashIntelligently cfg env st0
        ⟨ct, some (addrLineMsg pre h1 mid d1 post), s1, sz1⟩ = (.full a1, st1) ∧
      analyzeCrashIntelligently cfg env st1
        ⟨ct, some (addrLineMsg pre h2 mid d2 post), s2, sz2⟩ = (.full a2, st2) ∧
      a1.cluster_analysis.is_novel = true ∧
      a2.cluster_analysis.is_duplicate = true ∧
      a2.cluster_analysis.is_novel = false ∧
      a2.cluster_analysis.cluster_size = 1 ∧
      a2.deduplication_key = a1.deduplication_key := by
  set r1 : CrashReport := ⟨ct, some (addrLineMsg pre h1 mid d1 post), s1, sz1⟩ with hr1
  set r2 : CrashReport := ⟨ct, some (addrLineMsg pre h2 mid d2 post), s2, sz2⟩ with hr2
  have hkey : generateDedupKey r1 = generateDedupKey r2 := by
    refine generateDedupKey_congr r1 r2 rfl htop ?_
    show normalizeErrorMessage (addrLineMsg pre h1 mid d1 post) =
      normalizeErrorMessage (addrLineMsg pre h2 mid d2 post)
    exact normalize_addrLineMsg pre mid post h1 h2 d1 d2 hpre hh1 hh2 hd1 hd2 hpost
  refine ⟨hkey, generateDedupKey_length r1,
    (analyzeBody cfg env st0 r1).1, (analyzeBody cfg env st0 r1).2,
    (analyzeBody cfg env (analyzeBody cfg env st0 r1).2 r2).1,
    (analyzeBody cfg env (analyzeBody cfg env st0 r1).2 r2).2,
    rfl, rfl, ?_, ?_, ?_, ?_, ?_⟩
  · rw [analyzeBody_cluster_field, hfresh, fastClusterAnalysis_nil]
  all_goals {
    have hclusters : (analyzeBody cfg env st0 r1).2.crashClusters =
        [(generateDedupKey r1, [st0.clock])] := by
      rw [analyzeBody_clusters, hfresh, fastClusterAnalysis_nil]
    first
    | (rw [analyzeBody_cluster_field, hclusters, ← hkey, fastClusterAnalysis_found] <;> simp)
    | (rw [analyzeBody_dedup_field, analyzeBody_dedup_field, hkey])
  }

/-- The concrete crash reports for the C5 counterexample and witness:
equal crash type and stack trace; messages differing only in the
hexadecimal address and the `:`-line number. -/
def c5report1 : CrashReport :=
  ⟨some (str "heap-buffer-overflow"),
   some (addrLineMsg (str "READ of size 4 at ") (str "60200000eff0")
     (str " in x.c line ") (str "42") (str " end")),
   some (str "#0 0x4f5e35 in parse_input /src/x.c"),
   some ⟨some 64⟩⟩

/-- Second report: same type and stack, different address and line. -/
def c5report2 : CrashReport :=
  ⟨some (str "heap-buffer-overflow"),
   some (addrLineMsg (str "READ of size 4 at ") (str "7fff5ead")
     (str " in x.c line ") (str "7") (str " end")),
   some (str "#0 0x4f5e35 in parse_input /src/x.c"),
   some ⟨some 64⟩⟩

/-- Engine configuration/environment/state for the concrete C5 runs:
embeddings disabled, fresh engine. -/
def c5cfg : EngineConfig := ⟨false⟩

/-- Environment for the concrete C5 runs (builtin-hash seed fixed at a
constant; the external service is never reached). -/
def c5env : PyEnv := ⟨fun _ => 0, false, none, fun _ => .error [], fun _ => 0⟩

/-- Fresh engine state for the concrete C5 runs. -/
def c5st0 : EngineState := ⟨2, 0, [], [], 0, 0, 0, 0⟩

/-- Cluster size reported for an analysis result. -/
def resultClusterSize : AnalysisResult → Nat
  | .full a => a.cluster_analysis.cluster_size
  | .fallback _ => 0

/-- Duplicate flag reported for an analysis result. -/
def resultIsDuplicate : AnalysisResult → Bool
  | .full a => a.cluster_analysis.is_duplicate
  | .fallback _ => false

/-- Deduplication key reported for an analysis result. -/
def resultDedupKey : AnalysisResult → Str
  | .full a => a.deduplication_key
  | .fallback _ => []

set_option maxRecDepth 200000 in
/-- C5 (counterexample): on two concrete crash reports with the same
crash type and top stack function whose messages differ only in the
embedded hex address and `:line` number, the dedup keys agree and the
second analysis is marked duplicate — but its reported cluster size is 1
(the number of prior observations), not 2 as the claim states. -/
theorem C5_second_report_cluster_size_one :
    generateDedupKey c5report1 = generateDedupKey c5report2 ∧
    resultIsDuplicate
      (analyzeCrashIntelligently c5cfg c5env
        (analyzeCrashIntelligently c5cfg c5env c5st0 c5report1).2 c5report2).1 = true ∧
    resultClusterSize
      (analyzeCrashIntelligently c5cfg c5env
        (analyzeCrashIntelligently c5cfg c5env c5st0 c5report1).2 c5report2).1 = 1 ∧
    ¬ (resultClusterSize
      (analyzeCrashIntelligently c5cfg c5env
        (analyzeCrashIntelligently c5cfg c5env c5st0 c5report1).2 c5report2).1 = 2) := by
  with_unfolding_all decide

set_option maxRecDepth 200000 in
/-- C5 (witness): the amended theorem applied to the concrete reports. -/
theorem C5_amended_witness :
    (c5st0.crashClusters = []) ∧
    (extractTopFunction ((some (str "#0 0x4f5e35 in parse_input /src/x.c")).getD []) =
      extractTopFunction ((some (str "#0 0x4f5e35 in parse_input /src/x.c")).getD [])) ∧
    (endsAddrSfx (str "READ of size 4 at ") = false) ∧
    ((str "60200000eff0") ≠ [] ∧ (str "60200000eff0").all isHexLower = true) ∧
    ((str "7fff5ead") ≠ [] ∧ (str "7fff5ead").all isHexLower = true) ∧
    ((str "42") ≠ [] ∧ (str "42").all Char.isDigit = true) ∧
    ((str "7") ≠ [] ∧ (str "7").all Char.isDigit = true) ∧
    (∀ c, (str " end").head? = some c → isHexLower c = false ∧ c ≠ 'x') ∧
    (generateDedupKey c5report1 = generateDedupKey c5report2 ∧
     (generateDedupKey c5report1).length = 16 ∧
     ∃ a1 st1 a2 st2,
       analyzeCrashIntelligently c5cfg c5env c5st0 c5report1 = (.full a1, st1) ∧
       analyzeCrashIntelligently c5cfg c5env st1 c5report2 = (.full a2, st2) ∧
       a1.cluster_analysis.is_novel = true ∧
       a2.cluster_analysis.is_duplicate = true ∧
       a2.cluster_analysis.is_novel = false ∧
       a2.cluster_analysis.cluster_size = 1 ∧
       a2.deduplication_key = a1.deduplication_key) :=
  ⟨rfl, rfl, by decide, by decide, by decide, by decide, by decide, by decide,
   C5_same_dedup_key_duplicate_cluster c5cfg c5env c5st0 rfl
     (some (str "heap-buffer-overflow"))
     (some (str "#0 0x4f5e35 in parse_input /src/x.c"))
     (some (str "#0 0x4f5e35 in parse_input /src/x.c"))
     rfl (some ⟨some 64⟩) (some ⟨some 64⟩)
     (str "READ of size 4 at ") (str " in x.c line ") (str " end")
     (str "60200000eff0") (str "7fff5ead") (str "42") (str "7")
     (by decide) (by decide) (by decide) (by decide) (by decide) (by decide)⟩

end OssFuzz
